import Mathlib

/-!
Verification of the physical block allocator of lwext4 (`src/lwext4/ext4_balloc.c`).

The allocator is embedded shallowly: the mutable filesystem state (superblock
free-block counter, per-group descriptor free counters, per-group block bitmaps,
the inode block counter and the descriptor checksum fields) becomes a Lean
structure, and each C function becomes a Lean function from that state to a
result record.  Fallible external calls (`ext4_fs_get_block_group_ref`,
`ext4_block_get`, `ext4_block_set`, `ext4_fs_put_block_group_ref`) are modelled
by an error schedule: a function from the index of the fallible call (counted
from 0 in call order within one allocator operation) to the return code of that
call, 0 meaning success.  A bitmap mutation becomes visible in the filesystem
state at the moment the corresponding `ext4_block_set` succeeds; on a failed
store the buffer's content is discarded (the spec: a failed bitmap store leaves
the filesystem logically unchanged modulo a dirty in-memory bitmap).  Checksum
stamping mutates the in-memory group descriptor immediately, as in the C code.

Machine integers: counters are natural numbers and every C counter update is
performed with explicit wrap-around arithmetic modulo 2^64 (superblock and
inode counters, `uint64_t`) or 2^32 (group descriptor counter, `uint32_t`).
The 32-bit multiplication `bgid * blocks_per_group` inside
`ext4_balloc_get_block_of_bgid` is modelled with its C semantics, i.e. reduced
modulo 2^32 (`uint32_t * uint32_t` arithmetic on the 32-bit `unsigned int`
platforms lwext4 targets).  Quantities whose C types cannot overflow for any
filesystem geometry that fits a bitmap block (in-group indices, `8*block_size`)
are kept as exact naturals.
-/

namespace Balloc

/-- Success return code, as in lwext4. -/
def EOK : ℕ := 0

/-- Return code of the allocator when every group is full. -/
def ENOSPC : ℕ := 28

/-- Inode block counts are measured in 512-byte sectors. -/
def EXT4_INODE_BLOCK_SIZE : ℕ := 512

/-- The maximal (64-byte) block group descriptor size; gates `csum_hi`. -/
def EXT4_MAX_BLOCK_GROUP_DESCRIPTOR_SIZE : ℕ := 64

/-- 2^32, the modulus of `uint32_t` arithmetic. -/
def U32 : ℕ := 2 ^ 32

/-- 2^64, the modulus of `uint64_t` arithmetic. -/
def U64 : ℕ := 2 ^ 64

/-- Reduce an integer into `[0, 2^64)`, as C `uint64_t` arithmetic does. -/
def wrap64 (z : ℤ) : ℕ := (z % (2 ^ 64 : ℤ)).toNat

/-- Reduce an integer into `[0, 2^32)`, as C `uint32_t` arithmetic does. -/
def wrap32 (z : ℤ) : ℕ := (z % (2 ^ 32 : ℤ)).toNat

/-- C `uint64_t` addition. -/
def add64 (a b : ℕ) : ℕ := wrap64 ((a : ℤ) + b)

/-- C `uint64_t` subtraction. -/
def sub64 (a b : ℕ) : ℕ := wrap64 ((a : ℤ) - b)

/-- C `uint32_t` addition. -/
def add32 (a b : ℕ) : ℕ := wrap32 ((a : ℤ) + b)

/-- C `uint32_t` subtraction. -/
def sub32 (a b : ℕ) : ℕ := wrap32 ((a : ℤ) - b)

/-- The superblock fields the allocator reads.  `first_data_block` is only ever
tested against zero; `blocks_per_group`, `block_size` and `desc_size` are the
geometry accessors `ext4_get32(s, blocks_per_group)`, `ext4_sb_get_block_size`
and `ext4_sb_get_desc_size`; the two feature booleans are the results of
`ext4_sb_feature_ro_com(sb, EXT4_FRO_COM_METADATA_CSUM)` and
`ext4_sb_feature_incom(sb, EXT4_FINCOM_FLEX_BG)`; `uuid` is the 16-byte
`sb->uuid` as a list of bytes. -/
structure Sblock where
  first_data_block : ℕ
  blocks_per_group : ℕ
  block_size : ℕ
  blocks_count : ℕ
  block_group_count : ℕ
  feature_metadata_csum : Bool
  feature_flex_bg : Bool
  desc_size : ℕ
  uuid : List ℕ

/-- `ext4_balloc_get_bgid_of_block` (ext4_balloc.c, lines 56-63): the block
group of an absolute block address.  The decrement is applied only when
`first_data_block != 0 && baddr != 0`, exactly as in the source.  The C function
narrows the quotient to `uint32_t`; the narrowing is omitted here because a
quotient of a valid block address by `blocks_per_group` is a group id and group
ids are 32-bit by construction of the on-disk format. -/
def ext4_balloc_get_bgid_of_block (s : Sblock) (baddr : ℕ) : ℕ :=
  if s.first_data_block ≠ 0 ∧ baddr ≠ 0 then (baddr - 1) / s.blocks_per_group
  else baddr / s.blocks_per_group

/-- `ext4_balloc_get_block_of_bgid` (ext4_balloc.c, lines 70-79): the first
block address of a block group.  The product `bgid * ext4_get32(s,
blocks_per_group)` multiplies two `uint32_t` operands, so it is computed modulo
2^32 before being added to the 64-bit accumulator; this is the C semantics on
the 32-bit-`int` platforms lwext4 targets and it is observable (see the
corresponding claim). -/
def ext4_balloc_get_block_of_bgid (s : Sblock) (bgid : ℕ) : ℕ :=
  (if s.first_data_block ≠ 0 then 1 else 0) + bgid * s.blocks_per_group % U32

/-- Modelled from the spec: `ext4_fs_baddr2_index_in_group` is supplied by the
filesystem layer (`ext4_fs.h`, not among the sources under verification).  Per
the spec it is the in-group index consistent with `bgid_of` and
`first_block_of`: the position of `baddr` within its group, after discounting
the `first_data_block` offset.  (For `baddr = 0` with a nonzero
`first_data_block` the C computation underflows; natural subtraction is used
here, and no claim exercises that reserved address.) -/
def ext4_fs_baddr2_index_in_group (s : Sblock) (baddr : ℕ) : ℕ :=
  (baddr - (if s.first_data_block ≠ 0 then 1 else 0)) % s.blocks_per_group

/-- Modelled from the spec: `ext4_fs_index_in_group2_baddr` (`ext4_fs.h`), the
inverse geometry helper: the absolute address of in-group index `index` of
group `bgid`, i.e. `first_block_of(bgid) + index`. -/
def ext4_fs_index_in_group2_baddr (s : Sblock) (index bgid : ℕ) : ℕ :=
  ext4_balloc_get_block_of_bgid s bgid + index

/-- Modelled from the spec: `ext4_block_group_cnt` (`ext4_super.h`), the number
`G` of block groups, derived at mount time from the total block count and
`blocks_per_group`; taken here as the superblock field `block_group_count`. -/
def ext4_block_group_cnt (s : Sblock) : ℕ := s.block_group_count

/-- Modelled from the spec: `ext4_blocks_in_group_cnt` (`ext4_super.h`): every
group holds `blocks_per_group` blocks except possibly the last, which receives
the remainder of the data blocks. -/
def ext4_blocks_in_group_cnt (s : Sblock) (bgid : ℕ) : ℕ :=
  if bgid + 1 = s.block_group_count then
    s.blocks_count - (if s.first_data_block ≠ 0 then 1 else 0) -
      (s.block_group_count - 1) * s.blocks_per_group
  else s.blocks_per_group

/-- A block bitmap, abstracted to its bit content: `bm i = true` means bit `i`
is set (block at in-group index `i` allocated). -/
abbrev Bitmap := ℕ → Bool

/-- Modelled from the spec: `ext4_bmap_is_bit_clr` (`ext4_bitmap.h`): test that
bit `i` is clear. -/
def ext4_bmap_is_bit_clr (bm : Bitmap) (i : ℕ) : Bool := !bm i

/-- Modelled from the spec: `ext4_bmap_bit_set` (`ext4_bitmap.h`): set bit `i`. -/
def ext4_bmap_bit_set (bm : Bitmap) (i : ℕ) : Bitmap :=
  fun j => if j = i then true else bm j

/-- Modelled from the spec: `ext4_bmap_bit_clr` (`ext4_bitmap.h`): clear bit `i`. -/
def ext4_bmap_bit_clr (bm : Bitmap) (i : ℕ) : Bitmap :=
  fun j => if j = i then false else bm j

/-- Modelled from the spec: `ext4_bmap_bits_free` (`ext4_bitmap.c`): clear
`count` consecutive bits beginning at `start`. -/
def ext4_bmap_bits_free (bm : Bitmap) (start count : ℕ) : Bitmap :=
  fun j => if start ≤ j ∧ j < start + count then false else bm j

/-- Scan helper for `ext4_bmap_bit_find_clr`: first clear bit at position
`≥ s`, looking at `n` positions. -/
def findClrAux (bm : Bitmap) : ℕ → ℕ → Option ℕ
  | _, 0 => none
  | s, n + 1 => if bm s then findClrAux bm (s + 1) n else some s

/-- Modelled from the spec: `ext4_bmap_bit_find_clr` (`ext4_bitmap.c`): the
first (lowest-index, left-to-right) clear bit in `[s, e)`, or `none` when every
bit there is set (the C function reports `EOK` plus an out-parameter, or
`ENOENT`). -/
def ext4_bmap_bit_find_clr (bm : Bitmap) (s e : ℕ) : Option ℕ :=
  findClrAux bm s (e - s)

/-- The bytes of a bitmap buffer, little-endian bit order (bit 0 of byte 0 is
in-group index 0), as handed to the CRC routine. -/
def bitmapBytes (bm : Bitmap) (nbytes : ℕ) : List ℕ :=
  (List.range nbytes).map fun j =>
    (List.range 8).foldl (fun acc k => acc + if bm (8 * j + k) then 2 ^ k else 0) 0

/-- The verification context: the superblock together with the external
CRC32C routine (`ext4_crc32c`, out of scope per the spec), kept abstract as a
function from seed and byte list to a 32-bit word. -/
structure Env where
  sb : Sblock
  crc32c : ℕ → List ℕ → ℕ

/-- `ext4_balloc_bitmap_csum` (ext4_balloc.c, lines 81-96): 0 when the
metadata-checksum feature is off; otherwise CRC32C seeded with `~0` over the
16-byte filesystem UUID, continued over the first `blocks_per_group / 8` bytes
of the bitmap.  Each CRC call returns `uint32_t`, hence the reductions. -/
def ext4_balloc_bitmap_csum (env : Env) (bm : Bitmap) : ℕ :=
  if env.sb.feature_metadata_csum then
    env.crc32c (env.crc32c (U32 - 1) env.sb.uuid % U32)
        (bitmapBytes bm (env.sb.blocks_per_group / 8)) % U32
  else 0

/-- The mutable filesystem state the allocator touches: the superblock free
block counter, the per-group descriptor free counters and checksum fields, the
per-group bitmaps (as committed by successful bitmap stores), and the block
count of the single inode under test. -/
structure FsState where
  sbFree : ℕ
  bgFree : ℕ → ℕ
  bitmap : ℕ → Bitmap
  inoBlocks : ℕ
  csumLo : ℕ → ℕ
  csumHi : ℕ → ℕ

/-- Pointwise function update (the in-place mutation of one group's record). -/
def upd {α : Type} (f : ℕ → α) (i : ℕ) (v : α) : ℕ → α :=
  fun j => if j = i then v else f j

/-- `ext4_balloc_set_bitmap_csum` (ext4_balloc.c, lines 103-117): stamp the
bitmap checksum into group `g`'s descriptor.  `csum_lo` receives the low 16
bits, `csum_hi` the high 16 bits but only when the descriptor size is the
64-byte maximum.  `to_le16` only fixes the on-disk byte order and does not
change the value. -/
def ext4_balloc_set_bitmap_csum (env : Env) (st : FsState) (g : ℕ) (bm : Bitmap) :
    FsState :=
  let checksum := ext4_balloc_bitmap_csum env bm
  let lo_checksum := checksum % 2 ^ 16
  let hi_checksum := checksum / 2 ^ 16
  let st1 := { st with csumLo := upd st.csumLo g lo_checksum }
  if env.sb.desc_size = EXT4_MAX_BLOCK_GROUP_DESCRIPTOR_SIZE then
    { st1 with csumHi := upd st1.csumHi g hi_checksum }
  else st1

/-- Error schedule: the return code of the k-th fallible external call
(`ext4_fs_get_block_group_ref`, `ext4_block_get`, `ext4_block_set`,
`ext4_fs_put_block_group_ref`, counted from 0 in call order). -/
abbrev Sched := ℕ → ℕ

/-- The all-success schedule: every external call returns `EOK`. -/
def okSched : Sched := fun _ => EOK

/-- Result of one allocator operation: the return code, the filesystem state,
the number of group handles acquired (`ext4_fs_get_block_group_ref` successes)
and released (`ext4_fs_put_block_group_ref` calls), the number of times a
bitmap buffer was marked dirty, and the out-parameters: `fblock` of `alloc`
(written only on the success path), `wasFree` of `try_alloc` (written once the
bitmap is loaded), and the final value of the local `count` of `free_blocks`
(the quantity the post-assert `ext4_assert(count == 0)` checks). -/
structure OpOut where
  rc : ℕ
  st : FsState
  gets : ℕ
  puts : ℕ
  dirtyMarks : ℕ
  fblock : Option ℕ := none
  wasFree : Option Bool := none
  remaining : ℕ := 0

/-- The repeated C statement sequence `ext4_bmap_bit_clr(bitmap_block.data, i);
ext4_balloc_set_bitmap_csum(...)` of `ext4_balloc_free_block`: the stamped
descriptor together with the mutated buffer, which becomes the group's bitmap
once the store succeeds. -/
def freeOneCommit (env : Env) (st : FsState) (g i : ℕ) : FsState :=
  let bm := ext4_bmap_bit_clr (st.bitmap g) i
  let st1 := ext4_balloc_set_bitmap_csum env st g bm
  { st1 with bitmap := upd st1.bitmap g bm }

/-- As `freeOneCommit` but for a failed store: only the in-memory descriptor
checksum was mutated, the buffer content is discarded. -/
def freeOneStamp (env : Env) (st : FsState) (g i : ℕ) : FsState :=
  ext4_balloc_set_bitmap_csum env st g (ext4_bmap_bit_clr (st.bitmap g) i)

/-- The C statement sequence `ext4_bmap_bit_set(...); ext4_balloc_set_bitmap_csum(...)`
shared by the four claim sites of `ext4_balloc_alloc_block` and by
`ext4_balloc_try_alloc_block`, with the buffer committed (store succeeded). -/
def claimCommit (env : Env) (st : FsState) (g j : ℕ) : FsState :=
  let bm := ext4_bmap_bit_set (st.bitmap g) j
  let st1 := ext4_balloc_set_bitmap_csum env st g bm
  { st1 with bitmap := upd st1.bitmap g bm }

/-- As `claimCommit` but for a failed store: only the descriptor checksum
fields changed. -/
def claimStamp (env : Env) (st : FsState) (g j : ℕ) : FsState :=
  ext4_balloc_set_bitmap_csum env st g (ext4_bmap_bit_set (st.bitmap g) j)

/-- The `ext4_bmap_bits_free` range clear of `ext4_balloc_free_blocks` plus the
checksum stamp, with the buffer committed. -/
def rangeCommit (env : Env) (st : FsState) (g i k : ℕ) : FsState :=
  let bm := ext4_bmap_bits_free (st.bitmap g) i k
  let st1 := ext4_balloc_set_bitmap_csum env st g bm
  { st1 with bitmap := upd st1.bitmap g bm }

/-- As `rangeCommit` but for a failed store. -/
def rangeStamp (env : Env) (st : FsState) (g i k : ℕ) : FsState :=
  ext4_balloc_set_bitmap_csum env st g (ext4_bmap_bits_free (st.bitmap g) i k)

/-- The three counter updates of the `success:` label of
`ext4_balloc_alloc_block` (lines 497-514), shared verbatim by
`ext4_balloc_try_alloc_block` (lines 577-594): superblock free count −1, inode
blocks +`block_size/512`, group free count −1, in C unsigned arithmetic. -/
def applyAllocCounters (env : Env) (st : FsState) (g : ℕ) : FsState :=
  { st with
    sbFree := sub64 st.sbFree 1
    inoBlocks := add64 st.inoBlocks (env.sb.block_size / EXT4_INODE_BLOCK_SIZE)
    bgFree := upd st.bgFree g (sub32 (st.bgFree g) 1) }

/-- The three counter updates of `ext4_balloc_free_block` (lines 159-176) and,
with `k` freed bits, of one iteration of `ext4_balloc_free_blocks` (lines
252-271): superblock free count +k, inode blocks −`k*(block_size/512)`, group
free count +k. -/
def applyFreeCounters (env : Env) (st : FsState) (g k : ℕ) : FsState :=
  { st with
    sbFree := add64 st.sbFree k
    inoBlocks := sub64 st.inoBlocks (k * (env.sb.block_size / EXT4_INODE_BLOCK_SIZE))
    bgFree := upd st.bgFree g (add32 (st.bgFree g) k) }

/-- `ext4_balloc_free_block` (ext4_balloc.c, lines 119-182).  Fallible calls in
order: group handle acquire (0), bitmap load (1), bitmap store (2), handle
release (3; index 2 on the load-failure path, whose result the C code
discards). -/
def ext4_balloc_free_block (env : Env) (sched : Sched) (st : FsState)
    (baddr : ℕ) : OpOut :=
  let sb := env.sb
  let block_group := ext4_balloc_get_bgid_of_block sb baddr
  let index_in_group := ext4_fs_baddr2_index_in_group sb baddr
  let rc := sched 0
  if rc ≠ EOK then { rc := rc, st := st, gets := 0, puts := 0, dirtyMarks := 0 }
  else
    let rc := sched 1
    if rc ≠ EOK then { rc := rc, st := st, gets := 1, puts := 1, dirtyMarks := 0 }
    else
      let rc := sched 2
      if rc ≠ EOK then
        { rc := rc, st := freeOneStamp env st block_group index_in_group,
          gets := 1, puts := 1, dirtyMarks := 1 }
      else
        let st := freeOneCommit env st block_group index_in_group
        let st := applyFreeCounters env st block_group 1
        { rc := sched 3, st := st, gets := 1, puts := 1, dirtyMarks := 1 }

/-- The `while (block_group_first <= block_group_last)` loop of
`ext4_balloc_free_blocks` (lines 207-280).  `fuel` is
`block_group_last + 1 - bg`, so `fuel = 0` is exactly the loop exit condition;
`idx` is the index of the next fallible call.  Each iteration: handle acquire
(idx), bitmap load (idx+1), range clear and stamp, bitmap store (idx+2),
counter updates, handle release (idx+3; a failed release breaks the loop
returning its code, as in the C). -/
def freeBlocksLoop (env : Env) (sched : Sched) :
    ℕ → ℕ → ℕ → ℕ → ℕ → FsState → ℕ → ℕ → ℕ → ℕ → OpOut
  | 0, _, _, _, count, st, _, gets, puts, dirty =>
    { rc := EOK, st := st, gets := gets, puts := puts, dirtyMarks := dirty,
      remaining := count }
  | fuel + 1, bg, bg_last, first, count, st, idx, gets, puts, dirty =>
    let sb := env.sb
    let rc := sched idx
    if rc ≠ EOK then
      { rc := rc, st := st, gets := gets, puts := puts, dirtyMarks := dirty,
        remaining := count }
    else
      let index_in_group_first := ext4_fs_baddr2_index_in_group sb first
      let rc := sched (idx + 1)
      if rc ≠ EOK then
        { rc := rc, st := st, gets := gets + 1, puts := puts + 1,
          dirtyMarks := dirty, remaining := count }
      else
        let free_cnt0 := sb.block_size * 8 - index_in_group_first
        let free_cnt := if count > free_cnt0 then free_cnt0 else count
        let count' := count - free_cnt
        let first' := first + free_cnt
        let rc := sched (idx + 2)
        if rc ≠ EOK then
          { rc := rc, st := rangeStamp env st bg index_in_group_first free_cnt,
            gets := gets + 1, puts := puts + 1, dirtyMarks := dirty + 1,
            remaining := count' }
        else
          let st := rangeCommit env st bg index_in_group_first free_cnt
          let st := applyFreeCounters env st bg free_cnt
          let rc := sched (idx + 3)
          if rc ≠ EOK then
            { rc := rc, st := st, gets := gets + 1, puts := puts + 1,
              dirtyMarks := dirty + 1, remaining := count' }
          else
            freeBlocksLoop env sched fuel (bg + 1) bg_last first' count' st
              (idx + 4) (gets + 1) (puts + 1) (dirty + 1)

/-- `ext4_balloc_free_blocks` (ext4_balloc.c, lines 184-285).  The debug-only
`ext4_assert` calls do not alter release-build behaviour and are not modelled;
the final value of the local `count` is reported in `remaining` so the
post-assert `count == 0` can be stated.  (`first + count - 1` is exact here;
the C `uint64_t` wrap of that expression only differs for `count = 0` with
`first = 0`, a call no claim makes.) -/
def ext4_balloc_free_blocks (env : Env) (sched : Sched) (st : FsState)
    (first count : ℕ) : OpOut :=
  let sb := env.sb
  let block_group_first := ext4_balloc_get_bgid_of_block sb first
  let block_group_last := ext4_balloc_get_bgid_of_block sb (first + count - 1)
  freeBlocksLoop env sched (block_group_last + 1 - block_group_first)
    block_group_first block_group_last first count st 0 0 0 0

/-- The `success:` label of `ext4_balloc_alloc_block` (lines 493-521): counter
updates, group handle release (whose return code becomes the operation's), and
the write of the out-parameter `*fblock`. -/
def allocSuccess (env : Env) (sched : Sched) (st : FsState)
    (g allocated idx gets puts dirty : ℕ) : OpOut :=
  { rc := sched idx, st := applyAllocCounters env st g, gets := gets,
    puts := puts + 1, dirtyMarks := dirty, fblock := some allocated }

/-- The `while (count > 0)` linear-wrap loop of `ext4_balloc_alloc_block`
(lines 416-489): visit `count` groups cyclically starting at `bgid`.  Per
iteration: handle acquire; if the group's free counter is zero, handle release
and advance; otherwise bitmap load, clamped group-wide scan, and on a hit the
claim sequence, bitmap store and the success path, on a miss a clean store,
handle release and advance. -/
def allocLoop (env : Env) (sched : Sched) :
    ℕ → ℕ → FsState → ℕ → ℕ → ℕ → ℕ → OpOut
  | _, 0, st, _, gets, puts, dirty =>
    { rc := ENOSPC, st := st, gets := gets, puts := puts, dirtyMarks := dirty }
  | bgid, count + 1, st, idx, gets, puts, dirty =>
    let sb := env.sb
    let rc := sched idx
    if rc ≠ EOK then
      { rc := rc, st := st, gets := gets, puts := puts, dirtyMarks := dirty }
    else
      if st.bgFree bgid = 0 then
        let rc := sched (idx + 1)
        if rc ≠ EOK then
          { rc := rc, st := st, gets := gets + 1, puts := puts + 1,
            dirtyMarks := dirty }
        else
          allocLoop env sched ((bgid + 1) % ext4_block_group_cnt sb) count st
            (idx + 2) (gets + 1) (puts + 1) dirty
      else
        let rc := sched (idx + 1)
        if rc ≠ EOK then
          { rc := rc, st := st, gets := gets + 1, puts := puts + 1,
            dirtyMarks := dirty }
        else
          let first_in_group := ext4_balloc_get_block_of_bgid sb bgid
          let index_in_group := ext4_fs_baddr2_index_in_group sb first_in_group
          let blocks_in_group := ext4_blocks_in_group_cnt sb bgid
          let first_in_group_index := ext4_fs_baddr2_index_in_group sb first_in_group
          let index_in_group :=
            if index_in_group < first_in_group_index then first_in_group_index
            else index_in_group
          match ext4_bmap_bit_find_clr (st.bitmap bgid) index_in_group
              blocks_in_group with
          | some rel_block_idx =>
            let rc := sched (idx + 2)
            if rc ≠ EOK then
              { rc := rc, st := claimStamp env st bgid rel_block_idx,
                gets := gets + 1, puts := puts + 1, dirtyMarks := dirty + 1 }
            else
              allocSuccess env sched (claimCommit env st bgid rel_block_idx)
                bgid (ext4_fs_index_in_group2_baddr sb rel_block_idx bgid)
                (idx + 3) (gets + 1) puts (dirty + 1)
          | none =>
            let rc := sched (idx + 2)
            if rc ≠ EOK then
              { rc := rc, st := st, gets := gets + 1, puts := puts + 1,
                dirtyMarks := dirty }
            else
              let rc := sched (idx + 3)
              if rc ≠ EOK then
                { rc := rc, st := st, gets := gets + 1, puts := puts + 1,
                  dirtyMarks := dirty }
              else
                allocLoop env sched ((bgid + 1) % ext4_block_group_cnt sb) count
                  st (idx + 4) (gets + 1) (puts + 1) dirty

/-- `ext4_balloc_alloc_block` (ext4_balloc.c, lines 287-522).  Phase 1 searches
the goal's group: goal bit, then the neighborhood up to the next 64-bit word
boundary (the C `for` loop claims the first clear bit of `[i+1, end_idx)`,
rendered by `ext4_bmap_bit_find_clr` on that range), then a group-wide scan
from the clamped goal index.  On a `block_set` failure inside the neighborhood
or group-wide branch the C code returns without releasing the group handle
(lines 368-370 and 387-389); the model returns `puts` unincremented there.
Phase 2 is `allocLoop`. -/
def ext4_balloc_alloc_block (env : Env) (sched : Sched) (st : FsState)
    (goal : ℕ) : OpOut :=
  let sb := env.sb
  let block_group := ext4_balloc_get_bgid_of_block sb goal
  let index_in_group := ext4_fs_baddr2_index_in_group sb goal
  let rc := sched 0
  if rc ≠ EOK then
    { rc := rc, st := st, gets := 0, puts := 0, dirtyMarks := 0 }
  else
    if st.bgFree block_group = 0 then
      let rc := sched 1
      if rc ≠ EOK then
        { rc := rc, st := st, gets := 1, puts := 1, dirtyMarks := 0 }
      else
        allocLoop env sched ((block_group + 1) % ext4_block_group_cnt sb)
          (ext4_block_group_cnt sb) st 2 1 1 0
    else
      let first_in_group := ext4_balloc_get_block_of_bgid sb block_group
      let first_in_group_index := ext4_fs_baddr2_index_in_group sb first_in_group
      let index_in_group :=
        if index_in_group < first_in_group_index then first_in_group_index
        else index_in_group
      let rc := sched 1
      if rc ≠ EOK then
        { rc := rc, st := st, gets := 1, puts := 1, dirtyMarks := 0 }
      else
        if ext4_bmap_is_bit_clr (st.bitmap block_group) index_in_group then
          let rc := sched 2
          if rc ≠ EOK then
            { rc := rc, st := claimStamp env st block_group index_in_group,
              gets := 1, puts := 1, dirtyMarks := 1 }
          else
            allocSuccess env sched (claimCommit env st block_group index_in_group)
              block_group
              (ext4_fs_index_in_group2_baddr sb index_in_group block_group)
              3 1 0 1
        else
          let blocks_in_group := ext4_blocks_in_group_cnt sb block_group
          let end_idx0 := (index_in_group + 63) / 64 * 64
          let end_idx := if end_idx0 > blocks_in_group then blocks_in_group
                         else end_idx0
          match ext4_bmap_bit_find_clr (st.bitmap block_group)
              (index_in_group + 1) end_idx with
          | some tmp_idx =>
            let rc := sched 2
            if rc ≠ EOK then
              { rc := rc, st := claimStamp env st block_group tmp_idx,
                gets := 1, puts := 0, dirtyMarks := 1 }
            else
              allocSuccess env sched (claimCommit env st block_group tmp_idx)
                block_group
                (ext4_fs_index_in_group2_baddr sb tmp_idx block_group) 3 1 0 1
          | none =>
            match ext4_bmap_bit_find_clr (st.bitmap block_group) index_in_group
                blocks_in_group with
            | some rel_block_idx =>
              let rc := sched 2
              if rc ≠ EOK then
                { rc := rc, st := claimStamp env st block_group rel_block_idx,
                  gets := 1, puts := 0, dirtyMarks := 1 }
              else
                allocSuccess env sched (claimCommit env st block_group rel_block_idx)
                  block_group
                  (ext4_fs_index_in_group2_baddr sb rel_block_idx block_group)
                  3 1 0 1
            | none =>
              let rc := sched 2
              if rc ≠ EOK then
                { rc := rc, st := st, gets := 1, puts := 1, dirtyMarks := 0 }
              else
                let rc := sched 3
                if rc ≠ EOK then
                  { rc := rc, st := st, gets := 1, puts := 1, dirtyMarks := 0 }
                else
                  allocLoop env sched
                    ((block_group + 1) % ext4_block_group_cnt sb)
                    (ext4_block_group_cnt sb) st 4 1 1 0

/-- `ext4_balloc_try_alloc_block` (ext4_balloc.c, lines 524-600).  `*free` is
written as soon as the bitmap is loaded, so it is reported even when the
subsequent store fails.  Counter updates happen only when the block was free
and the store succeeded. -/
def ext4_balloc_try_alloc_block (env : Env) (sched : Sched) (st : FsState)
    (baddr : ℕ) : OpOut :=
  let sb := env.sb
  let block_group := ext4_balloc_get_bgid_of_block sb baddr
  let index_in_group := ext4_fs_baddr2_index_in_group sb baddr
  let rc := sched 0
  if rc ≠ EOK then
    { rc := rc, st := st, gets := 0, puts := 0, dirtyMarks := 0 }
  else
    let rc := sched 1
    if rc ≠ EOK then
      { rc := rc, st := st, gets := 1, puts := 1, dirtyMarks := 0 }
    else
      if ext4_bmap_is_bit_clr (st.bitmap block_group) index_in_group then
        let rc := sched 2
        if rc ≠ EOK then
          { rc := rc, st := claimStamp env st block_group index_in_group,
            gets := 1, puts := 1, dirtyMarks := 1, wasFree := some true }
        else
          let st := claimCommit env st block_group index_in_group
          let st := applyAllocCounters env st block_group
          { rc := sched 3, st := st, gets := 1, puts := 1, dirtyMarks := 1,
            wasFree := some true }
      else
        let rc := sched 2
        if rc ≠ EOK then
          { rc := rc, st := st, gets := 1, puts := 1, dirtyMarks := 0,
            wasFree := some false }
        else
          { rc := sched 3, st := st, gets := 1, puts := 1, dirtyMarks := 0,
            wasFree := some false }

/-- The goal's in-group index as clamped by `ext4_balloc_alloc_block` (lines
317-323): raised to the in-group index of the group's first block when it lies
below it. -/
def clampedGoalIdx (env : Env) (goal : ℕ) : ℕ :=
  let i0 := ext4_fs_baddr2_index_in_group env.sb goal
  let f := ext4_fs_baddr2_index_in_group env.sb
    (ext4_balloc_get_block_of_bgid env.sb
      (ext4_balloc_get_bgid_of_block env.sb goal))
  if i0 < f then f else i0

/-- The index at which the linear-wrap phase of `ext4_balloc_alloc_block`
starts its group-wide scan of group `g`: the in-group index of the group's
first block (the clamp of lines 446-450 compares this value with itself, so it
is the scan start verbatim). -/
def groupScanStart (env : Env) (g : ℕ) : ℕ :=
  ext4_fs_baddr2_index_in_group env.sb (ext4_balloc_get_block_of_bgid env.sb g)

/-! ### Counting clear bits, the coherence invariant, and call sequences -/

/-- The number of clear bits among the first `n` bits of a bitmap. -/
def clearCount (bm : Bitmap) (n : ℕ) : ℕ :=
  ((List.range n).filter fun i => !bm i).length

/-- Geometry sanity of a mounted filesystem: a nonempty group size that fits
the 32-bit descriptor counter and the bitmap block, at least one group, a total
free-block capacity below 2^64, and no group larger than `blocks_per_group`. -/
def GeomOK (s : Sblock) : Prop :=
  0 < s.blocks_per_group ∧
  s.blocks_per_group < U32 ∧
  0 < ext4_block_group_cnt s ∧
  ext4_block_group_cnt s * s.blocks_per_group < U64 ∧
  s.blocks_per_group ≤ 8 * s.block_size ∧
  ∀ g, g < ext4_block_group_cnt s → ext4_blocks_in_group_cnt s g ≤ s.blocks_per_group

/-- Counter coherence (spec invariants 1-3) together with the padding
invariant (spec invariant 2): every group descriptated free counter equals the
number of clear bits in the valid prefix of its bitmap, the superblock counter
is the sum over all groups, and bits beyond the valid prefix are set. -/
def Consistent (env : Env) (st : FsState) : Prop :=
  GeomOK env.sb ∧
  (∀ g, g < ext4_block_group_cnt env.sb →
    st.bgFree g = clearCount (st.bitmap g) (ext4_blocks_in_group_cnt env.sb g)) ∧
  st.sbFree = Finset.sum (Finset.range (ext4_block_group_cnt env.sb)) st.bgFree ∧
  (∀ g, g < ext4_block_group_cnt env.sb →
    ∀ i, ext4_blocks_in_group_cnt env.sb g ≤ i → st.bitmap g i = true)

/-! ### State plumbing: checksum stamping only touches the checksum fields -/

@[simp] theorem set_bitmap_csum_sbFree (env : Env) (st : FsState) (g : ℕ)
    (bm : Bitmap) : (ext4_balloc_set_bitmap_csum env st g bm).sbFree = st.sbFree := by
  unfold ext4_balloc_set_bitmap_csum; split <;> rfl

@[simp] theorem set_bitmap_csum_bgFree (env : Env) (st : FsState) (g : ℕ)
    (bm : Bitmap) : (ext4_balloc_set_bitmap_csum env st g bm).bgFree = st.bgFree := by
  unfold ext4_balloc_set_bitmap_csum; split <;> rfl

@[simp] theorem set_bitmap_csum_bitmap (env : Env) (st : FsState) (g : ℕ)
    (bm : Bitmap) : (ext4_balloc_set_bitmap_csum env st g bm).bitmap = st.bitmap := by
  unfold ext4_balloc_set_bitmap_csum; split <;> rfl

@[simp] theorem set_bitmap_csum_inoBlocks (env : Env) (st : FsState) (g : ℕ)
    (bm : Bitmap) :
    (ext4_balloc_set_bitmap_csum env st g bm).inoBlocks = st.inoBlocks := by
  unfold ext4_balloc_set_bitmap_csum; split <;> rfl

@[simp] theorem claimCommit_sbFree (env : Env) (st : FsState) (g j : ℕ) :
    (claimCommit env st g j).sbFree = st.sbFree := by
  unfold claimCommit; simp

@[simp] theorem claimCommit_bgFree (env : Env) (st : FsState) (g j : ℕ) :
    (claimCommit env st g j).bgFree = st.bgFree := by
  unfold claimCommit; simp

@[simp] theorem claimCommit_inoBlocks (env : Env) (st : FsState) (g j : ℕ) :
    (claimCommit env st g j).inoBlocks = st.inoBlocks := by
  unfold claimCommit; simp

@[simp] theorem claimCommit_bitmap (env : Env) (st : FsState) (g j : ℕ) :
    (claimCommit env st g j).bitmap =
      upd st.bitmap g (ext4_bmap_bit_set (st.bitmap g) j) := by
  unfold claimCommit; simp

@[simp] theorem rangeCommit_sbFree (env : Env) (st : FsState) (g i k : ℕ) :
    (rangeCommit env st g i k).sbFree = st.sbFree := by
  unfold rangeCommit; simp

@[simp] theorem rangeCommit_bgFree (env : Env) (st : FsState) (g i k : ℕ) :
    (rangeCommit env st g i k).bgFree = st.bgFree := by
  unfold rangeCommit; simp

@[simp] theorem rangeCommit_inoBlocks (env : Env) (st : FsState) (g i k : ℕ) :
    (rangeCommit env st g i k).inoBlocks = st.inoBlocks := by
  unfold rangeCommit; simp

@[simp] theorem rangeCommit_bitmap (env : Env) (st : FsState) (g i k : ℕ) :
    (rangeCommit env st g i k).bitmap =
      upd st.bitmap g (ext4_bmap_bits_free (st.bitmap g) i k) := by
  unfold rangeCommit; simp

@[simp] theorem freeOneCommit_sbFree (env : Env) (st : FsState) (g i : ℕ) :
    (freeOneCommit env st g i).sbFree = st.sbFree := by
  unfold freeOneCommit; simp

@[simp] theorem freeOneCommit_bgFree (env : Env) (st : FsState) (g i : ℕ) :
    (freeOneCommit env st g i).bgFree = st.bgFree := by
  unfold freeOneCommit; simp

@[simp] theorem freeOneCommit_inoBlocks (env : Env) (st : FsState) (g i : ℕ) :
    (freeOneCommit env st g i).inoBlocks = st.inoBlocks := by
  unfold freeOneCommit; simp

@[simp] theorem freeOneCommit_bitmap (env : Env) (st : FsState) (g i : ℕ) :
    (freeOneCommit env st g i).bitmap =
      upd st.bitmap g (ext4_bmap_bit_clr (st.bitmap g) i) := by
  unfold freeOneCommit; simp

@[simp] theorem claimStamp_sbFree (env : Env) (st : FsState) (g j : ℕ) :
    (claimStamp env st g j).sbFree = st.sbFree := by unfold claimStamp; simp

@[simp] theorem claimStamp_bgFree (env : Env) (st : FsState) (g j : ℕ) :
    (claimStamp env st g j).bgFree = st.bgFree := by unfold claimStamp; simp

@[simp] theorem claimStamp_inoBlocks (env : Env) (st : FsState) (g j : ℕ) :
    (claimStamp env st g j).inoBlocks = st.inoBlocks := by unfold claimStamp; simp

@[simp] theorem claimStamp_bitmap (env : Env) (st : FsState) (g j : ℕ) :
    (claimStamp env st g j).bitmap = st.bitmap := by unfold claimStamp; simp

@[simp] theorem rangeStamp_sbFree (env : Env) (st : FsState) (g i k : ℕ) :
    (rangeStamp env st g i k).sbFree = st.sbFree := by unfold rangeStamp; simp

@[simp] theorem rangeStamp_bgFree (env : Env) (st : FsState) (g i k : ℕ) :
    (rangeStamp env st g i k).bgFree = st.bgFree := by unfold rangeStamp; simp

@[simp] theorem rangeStamp_inoBlocks (env : Env) (st : FsState) (g i k : ℕ) :
    (rangeStamp env st g i k).inoBlocks = st.inoBlocks := by unfold rangeStamp; simp

@[simp] theorem rangeStamp_bitmap (env : Env) (st : FsState) (g i k : ℕ) :
    (rangeStamp env st g i k).bitmap = st.bitmap := by unfold rangeStamp; simp

@[simp] theorem freeOneStamp_sbFree (env : Env) (st : FsState) (g i : ℕ) :
    (freeOneStamp env st g i).sbFree = st.sbFree := by unfold freeOneStamp; simp

@[simp] theorem freeOneStamp_bgFree (env : Env) (st : FsState) (g i : ℕ) :
    (freeOneStamp env st g i).bgFree = st.bgFree := by unfold freeOneStamp; simp

@[simp] theorem freeOneStamp_inoBlocks (env : Env) (st : FsState) (g i : ℕ) :
    (freeOneStamp env st g i).inoBlocks = st.inoBlocks := by
  unfold freeOneStamp; simp

@[simp] theorem freeOneStamp_bitmap (env : Env) (st : FsState) (g i : ℕ) :
    (freeOneStamp env st g i).bitmap = st.bitmap := by unfold freeOneStamp; simp

/-- One allocator call of a test sequence (spec section 8). -/
inductive Call where
  | alloc (goal : ℕ)
  | freeOne (baddr : ℕ)
  | freeRange (first count : ℕ)
  | tryOne (baddr : ℕ)

/-- Run one call under the all-success schedule. -/
def runCall (env : Env) (c : Call) (st : FsState) : OpOut :=
  match c with
  | .alloc goal => ext4_balloc_alloc_block env okSched st goal
  | .freeOne baddr => ext4_balloc_free_block env okSched st baddr
  | .freeRange first count => ext4_balloc_free_blocks env okSched st first count
  | .tryOne baddr => ext4_balloc_try_alloc_block env okSched st baddr

/-- Run a sequence of calls, threading the filesystem state. -/
def runSeq (env : Env) : List Call → FsState → FsState
  | [], st => st
  | c :: cs, st => runSeq env cs (runCall env c st).st

/-- Validity of one call in the current state: the touched addresses map to
existing groups; a freed block lies inside the valid prefix of its group with
its bit currently set; a freed range is nonempty and either fits in one group
or the filesystem has the standard geometry `blocks_per_group = 8*block_size`
(one full bitmap block per group). -/
def ValidCall (env : Env) (st : FsState) : Call → Prop
  | .alloc goal =>
      ext4_balloc_get_bgid_of_block env.sb goal < ext4_block_group_cnt env.sb
  | .freeOne baddr =>
      ext4_balloc_get_bgid_of_block env.sb baddr <
        ext4_block_group_cnt env.sb ∧
      ext4_fs_baddr2_index_in_group env.sb baddr <
        ext4_blocks_in_group_cnt env.sb
          (ext4_balloc_get_bgid_of_block env.sb baddr) ∧
      st.bitmap (ext4_balloc_get_bgid_of_block env.sb baddr)
        (ext4_fs_baddr2_index_in_group env.sb baddr) = true
  | .freeRange first count =>
      (if env.sb.first_data_block ≠ 0 then 1 else 0) ≤ first ∧
      0 < count ∧
      (ext4_fs_baddr2_index_in_group env.sb first + count ≤
          env.sb.blocks_per_group ∨
        env.sb.blocks_per_group = 8 * env.sb.block_size) ∧
      ∀ j, j < count →
        ext4_balloc_get_bgid_of_block env.sb (first + j) <
          ext4_block_group_cnt env.sb ∧
        ext4_fs_baddr2_index_in_group env.sb (first + j) <
          ext4_blocks_in_group_cnt env.sb
            (ext4_balloc_get_bgid_of_block env.sb (first + j)) ∧
        st.bitmap (ext4_balloc_get_bgid_of_block env.sb (first + j))
          (ext4_fs_baddr2_index_in_group env.sb (first + j)) = true
  | .tryOne baddr =>
      ext4_balloc_get_bgid_of_block env.sb baddr < ext4_block_group_cnt env.sb

/-- A sequence of calls each valid (per `P`) in the state where it runs. -/
inductive GoodSeq (env : Env) (P : FsState → Call → Prop) :
    FsState → List Call → Prop
  | nil (st : FsState) : GoodSeq env P st []
  | cons (st : FsState) (c : Call) (cs : List Call) :
      P st c → GoodSeq env P (runCall env c st).st cs →
      GoodSeq env P st (c :: cs)

/-- The signed change in the number of blocks held by the inode effected by
one call, as counted by the spec's inode-coherence invariant: +1 for an
allocation that hands out a block (an `alloc` that returns a block, a
`try_one` of a clear bit), −1 per freed block (`free_one`, and each of the
`count` blocks of a `free_range`). -/
def inoDelta (env : Env) (st : FsState) : Call → ℤ
  | .alloc goal =>
      if (ext4_balloc_alloc_block env okSched st goal).fblock.isSome then 1
      else 0
  | .freeOne _ => -1
  | .freeRange _ count => -(count : ℤ)
  | .tryOne baddr =>
      if st.bitmap (ext4_balloc_get_bgid_of_block env.sb baddr)
          (ext4_fs_baddr2_index_in_group env.sb baddr) then 0
      else 1

/-- Net signed block delta of a call sequence, threading the state. -/
def seqInoDelta (env : Env) : List Call → FsState → ℤ
  | [], _ => 0
  | c :: cs, st => inoDelta env st c + seqInoDelta env cs (runCall env c st).st

/-- No-overflow side conditions for one call's `uint64` counter arithmetic:
the inode block count stays inside `uint64` (and, for `free_range`, so does
the superblock free count, which the same loop updates), together with the
basic geometry bounds the range loop relies on. -/
def InoCallOK (env : Env) (st : FsState) : Call → Prop
  | .alloc _ =>
      st.inoBlocks + env.sb.block_size / EXT4_INODE_BLOCK_SIZE < U64
  | .freeOne _ =>
      env.sb.block_size / EXT4_INODE_BLOCK_SIZE ≤ st.inoBlocks ∧
      st.inoBlocks < U64
  | .freeRange _ count =>
      0 < env.sb.blocks_per_group ∧
      env.sb.blocks_per_group ≤ 8 * env.sb.block_size ∧
      st.sbFree + count < U64 ∧
      count * (env.sb.block_size / EXT4_INODE_BLOCK_SIZE) ≤ st.inoBlocks ∧
      st.inoBlocks < U64
  | .tryOne _ =>
      st.inoBlocks + env.sb.block_size / EXT4_INODE_BLOCK_SIZE < U64

/-! ### Concrete fixtures for witnesses and counterexamples -/

/-- A concrete stand-in for the external CRC32C routine (any function of this
type is admissible, the allocator treats it as opaque). -/
def testCrc : ℕ → List ℕ → ℕ := fun seed bytes => (seed + bytes.length) % U32

/-- A tiny filesystem: one group of 8 blocks, `first_data_block = 1`,
4096-byte blocks (the bitmap of the single group uses bits 0..7). -/
def sbSmall : Sblock :=
  { first_data_block := 1, blocks_per_group := 8, block_size := 4096,
    blocks_count := 9, block_group_count := 1, feature_metadata_csum := false,
    feature_flex_bg := false, desc_size := 32, uuid := [] }

def envSmall : Env := { sb := sbSmall, crc32c := testCrc }

/-- As `envSmall` but with the metadata-checksum feature on and 64-byte
descriptors. -/
def envCsum : Env :=
  { sb := { sbSmall with feature_metadata_csum := true, desc_size := 64 },
    crc32c := testCrc }

/-- The fresh state of `sbSmall`: all 8 data bits clear, padding bits set,
counters coherent. -/
def stEmpty : FsState :=
  { sbFree := 8, bgFree := fun _ => 8, bitmap := fun _ i => decide (8 ≤ i),
    inoBlocks := 80, csumLo := fun _ => 0, csumHi := fun _ => 0 }

/-- As `stEmpty` but with in-group bit 1 allocated (block address 2): the goal
bit of `alloc(goal = 2)` is taken and its right neighbor is clear. -/
def stOneUsed : FsState :=
  { sbFree := 7, bgFree := fun _ => 7,
    bitmap := fun _ i => decide (i = 1 ∨ 8 ≤ i),
    inoBlocks := 88, csumLo := fun _ => 0, csumHi := fun _ => 0 }

/-- The completely full state of `sbSmall`. -/
def stFull : FsState :=
  { sbFree := 0, bgFree := fun _ => 0, bitmap := fun _ _ => true,
    inoBlocks := 80, csumLo := fun _ => 0, csumHi := fun _ => 0 }

/-- A two-group flex_bg filesystem whose groups (8 blocks each) are smaller
than the bitmap block capacity (`8 * block_size = 16` bits). -/
def envFlex : Env :=
  { sb := { first_data_block := 0, blocks_per_group := 8, block_size := 2,
            blocks_count := 16, block_group_count := 2,
            feature_metadata_csum := false, feature_flex_bg := true,
            desc_size := 32, uuid := [] },
    crc32c := testCrc }

/-- All 16 blocks of `envFlex` allocated. -/
def stFlexFull : FsState :=
  { sbFree := 0, bgFree := fun _ => 0, bitmap := fun _ _ => true,
    inoBlocks := 80, csumLo := fun _ => 0, csumHi := fun _ => 0 }

/-- A state of `envFlex` with group 0 full and group 1 entirely free, driving
`alloc` past an empty goal group into the linear-wrap phase. -/
def stFlexHalf : FsState :=
  { sbFree := 8, bgFree := fun g => if g = 0 then 0 else 8,
    bitmap := fun g _ => decide (g = 0),
    inoBlocks := 32, csumLo := fun _ => 0, csumHi := fun _ => 0 }

/-- A large filesystem on which `bgid * blocks_per_group` overflows 32 bits
for a valid group id: 65537 groups of 65536 blocks (8-KiB block size, a little
over 2^32 blocks in total). -/
def sbTrunc : Sblock :=
  { first_data_block := 1, blocks_per_group := 65536, block_size := 8192,
    blocks_count := 2 ^ 32 + 65537, block_group_count := 65537,
    feature_metadata_csum := false, feature_flex_bg := false,
    desc_size := 32, uuid := [] }

/-- Error schedule failing the fallible call number `n` with code `e` while
every other call succeeds. -/
def failSchedAt (n e : ℕ) : Sched := fun k => if k = n then e else 0

/-- Error schedule failing the fallible call number 2 (the first bitmap store
of each operation under an otherwise clean run) with code `e`. -/
def failSched (e : ℕ) : Sched := fun k => if k = 2 then e else 0

/-! ### Arithmetic helper lemmas -/

theorem wrap64_natCast (n : ℕ) (h : n < U64) : wrap64 n = n := by
  unfold wrap64; unfold U64 at h; omega

theorem add64_eq_of_lt {a b : ℕ} (h : a + b < U64) : add64 a b = a + b := by
  unfold add64 wrap64; unfold U64 at h; omega

theorem sub64_eq_of_le {a b : ℕ} (hba : b ≤ a) (ha : a < U64) :
    sub64 a b = a - b := by
  unfold sub64 wrap64; unfold U64 at ha; omega

theorem add32_eq_of_lt {a b : ℕ} (h : a + b < U32) : add32 a b = a + b := by
  unfold add32 wrap32; unfold U32 at h; omega

theorem sub32_eq_of_le {a b : ℕ} (hba : b ≤ a) (ha : a < U32) :
    sub32 a b = a - b := by
  unfold sub32 wrap32; unfold U32 at ha; omega

theorem add64_add64 (a x y : ℕ) : add64 (add64 a x) y = add64 a (x + y) := by
  unfold add64 wrap64; omega

theorem sub64_sub64 (a x y : ℕ) : sub64 (sub64 a x) y = sub64 a (x + y) := by
  unfold sub64 wrap64; omega

/-! ### First-clear-bit scan -/

theorem findClrAux_eq_some {bm : Bitmap} {j : ℕ} :
    ∀ {s n : ℕ}, findClrAux bm s n = some j ↔
      s ≤ j ∧ j < s + n ∧ bm j = false ∧ ∀ t, s ≤ t → t < j → bm t = true := by
  intro s n
  induction n generalizing s with
  | zero =>
    simp only [findClrAux]
    constructor
    · intro h; exact absurd h (by simp)
    · rintro ⟨h1, h2, _⟩; omega
  | succ n ih =>
    unfold findClrAux
    by_cases hs : bm s
    · rw [if_pos hs, ih]
      constructor
      · rintro ⟨h1, h2, h3, h4⟩
        refine ⟨by omega, by omega, h3, fun t ht1 ht2 => ?_⟩
        rcases Nat.eq_or_lt_of_le ht1 with rfl | ht
        · exact hs
        · exact h4 t ht ht2
      · rintro ⟨h1, h2, h3, h4⟩
        have hsj : s ≠ j := by rintro rfl; rw [hs] at h3; cases h3
        exact ⟨by omega, by omega, h3, fun t ht1 ht2 => h4 t (by omega) ht2⟩
    · rw [if_neg hs, Option.some_inj]
      constructor
      · rintro rfl
        exact ⟨le_rfl, by omega, by simpa using hs, fun t ht1 ht2 => by omega⟩
      · rintro ⟨h1, h2, h3, h4⟩
        by_contra hne
        have hlt : s < j := lt_of_le_of_ne h1 (by simpa using hne)
        have := h4 s le_rfl hlt
        rw [this] at hs; exact hs rfl

theorem findClrAux_eq_none {bm : Bitmap} :
    ∀ {s n : ℕ}, findClrAux bm s n = none ↔
      ∀ t, s ≤ t → t < s + n → bm t = true := by
  intro s n
  induction n generalizing s with
  | zero =>
    simp only [findClrAux]
    constructor
    · intro _ t ht1 ht2; omega
    · intro _; trivial
  | succ n ih =>
    unfold findClrAux
    by_cases hs : bm s
    · rw [if_pos hs, ih]
      constructor
      · intro h t ht1 ht2
        rcases Nat.eq_or_lt_of_le ht1 with rfl | ht
        · exact hs
        · exact h t ht (by omega)
      · intro h t ht1 ht2
        exact h t (by omega) (by omega)
    · rw [if_neg hs]
      constructor
      · intro h; cases h
      · intro h
        have := h s le_rfl (by omega)
        rw [this] at hs; exact absurd rfl hs

theorem find_clr_some {bm : Bitmap} {s e j : ℕ} :
    ext4_bmap_bit_find_clr bm s e = some j ↔
      s ≤ j ∧ j < e ∧ bm j = false ∧ ∀ t, s ≤ t → t < j → bm t = true := by
  unfold ext4_bmap_bit_find_clr
  rw [findClrAux_eq_some]
  constructor
  · rintro ⟨h1, h2, h3, h4⟩; exact ⟨h1, by omega, h3, h4⟩
  · rintro ⟨h1, h2, h3, h4⟩; exact ⟨h1, by omega, h3, h4⟩

theorem find_clr_none {bm : Bitmap} {s e : ℕ} :
    ext4_bmap_bit_find_clr bm s e = none ↔
      ∀ t, s ≤ t → t < e → bm t = true := by
  unfold ext4_bmap_bit_find_clr
  rw [findClrAux_eq_none]
  constructor
  · intro h t ht1 ht2; exact h t ht1 (by omega)
  · intro h t ht1 ht2; exact h t ht1 (by omega)

/-! ### Counting clear bits -/

theorem clearCount_succ (bm : Bitmap) (n : ℕ) :
    clearCount bm (n + 1) = clearCount bm n + (if bm n then 0 else 1) := by
  unfold clearCount
  rw [List.range_succ, List.filter_append]
  by_cases h : bm n <;> simp [h]

theorem clearCount_congr {bm bm' : Bitmap} :
    ∀ {n : ℕ}, (∀ i, i < n → bm i = bm' i) → clearCount bm n = clearCount bm' n := by
  intro n
  induction n with
  | zero => intro _; rfl
  | succ n ih =>
    intro h
    rw [clearCount_succ, clearCount_succ, ih (fun i hi => h i (by omega)),
      h n (by omega)]

theorem clearCount_le (bm : Bitmap) (n : ℕ) : clearCount bm n ≤ n := by
  induction n with
  | zero => exact le_rfl
  | succ n ih => rw [clearCount_succ]; split <;> omega

theorem ite_of_bit_false {bm : Bitmap} {j : ℕ} (h : bm j = false) :
    (if bm j = true then 0 else 1) = 1 := by rw [h]; simp

theorem ite_of_bit_true {bm : Bitmap} {j : ℕ} (h : bm j = true) :
    (if bm j = true then 0 else 1) = 0 := by rw [h]; simp

theorem clearCount_pos {bm : Bitmap} {j n : ℕ} (hj : j < n) (h : bm j = false) :
    1 ≤ clearCount bm n := by
  induction n with
  | zero => omega
  | succ n ih =>
    rw [clearCount_succ]
    rcases Nat.lt_succ_iff_lt_or_eq.mp hj with h' | rfl
    · have := ih h'; omega
    · have := ite_of_bit_false h; omega

theorem clearCount_lt {bm : Bitmap} {j n : ℕ} (hj : j < n) (h : bm j = true) :
    clearCount bm n < n := by
  induction n with
  | zero => omega
  | succ n ih =>
    rw [clearCount_succ]
    have hle := clearCount_le bm n
    have hb : (if bm n = true then 0 else 1) ≤ 1 := by split <;> omega
    rcases Nat.lt_succ_iff_lt_or_eq.mp hj with h' | rfl
    · have := ih h'; omega
    · have := ite_of_bit_true h; omega

theorem clearCount_bit_set {bm : Bitmap} {j n : ℕ} (hj : j < n)
    (h : bm j = false) :
    clearCount (ext4_bmap_bit_set bm j) n + 1 = clearCount bm n := by
  induction n with
  | zero => omega
  | succ n ih =>
    rw [clearCount_succ, clearCount_succ]
    rcases Nat.lt_succ_iff_lt_or_eq.mp hj with h' | rfl
    · have hnj : n ≠ j := by omega
      have heq : ext4_bmap_bit_set bm j n = bm n := by
        simp [ext4_bmap_bit_set, hnj]
      rw [heq, ← ih h']
      omega
    · have hset : ext4_bmap_bit_set bm j j = true := by simp [ext4_bmap_bit_set]
      have h1 := ite_of_bit_true hset
      have h2 := ite_of_bit_false h
      have heq : clearCount (ext4_bmap_bit_set bm j) j = clearCount bm j := by
        apply clearCount_congr
        intro i hi
        simp [ext4_bmap_bit_set, Nat.ne_of_lt hi]
      omega

theorem clearCount_bit_clr {bm : Bitmap} {j n : ℕ} (hj : j < n)
    (h : bm j = true) :
    clearCount (ext4_bmap_bit_clr bm j) n = clearCount bm n + 1 := by
  induction n with
  | zero => omega
  | succ n ih =>
    rw [clearCount_succ, clearCount_succ]
    rcases Nat.lt_succ_iff_lt_or_eq.mp hj with h' | rfl
    · have hnj : n ≠ j := by omega
      have heq : ext4_bmap_bit_clr bm j n = bm n := by
        simp [ext4_bmap_bit_clr, hnj]
      rw [heq, ih h']
      omega
    · have hclr : ext4_bmap_bit_clr bm j j = false := by simp [ext4_bmap_bit_clr]
      have h1 := ite_of_bit_false hclr
      have h2 := ite_of_bit_true h
      have heq : clearCount (ext4_bmap_bit_clr bm j) j = clearCount bm j := by
        apply clearCount_congr
        intro i hi
        simp [ext4_bmap_bit_clr, Nat.ne_of_lt hi]
      omega

theorem bits_free_pointwise (bm : Bitmap) (i k j : ℕ) :
    ext4_bmap_bits_free bm i (k + 1) j =
      ext4_bmap_bit_clr (ext4_bmap_bits_free bm i k) (i + k) j := by
  simp only [ext4_bmap_bits_free, ext4_bmap_bit_clr]
  by_cases h1 : j = i + k
  · subst h1
    have hc : i ≤ i + k ∧ i + k < i + (k + 1) := by omega
    simp [hc]
  · rw [if_neg h1]
    by_cases h2 : i ≤ j ∧ j < i + (k + 1)
    · have h3 : i ≤ j ∧ j < i + k := by omega
      rw [if_pos h2, if_pos h3]
    · have h3 : ¬(i ≤ j ∧ j < i + k) := by omega
      rw [if_neg h2, if_neg h3]

theorem clearCount_bits_free {bm : Bitmap} {i k n : ℕ}
    (hset : ∀ t, i ≤ t → t < i + k → bm t = true) (hn : i + k ≤ n) :
    clearCount (ext4_bmap_bits_free bm i k) n = clearCount bm n + k := by
  induction k with
  | zero =>
    have heq : clearCount (ext4_bmap_bits_free bm i 0) n = clearCount bm n := by
      apply clearCount_congr
      intro t _
      simp only [ext4_bmap_bits_free]
      rw [if_neg (by omega)]
    omega
  | succ k ih =>
    have h1 : clearCount (ext4_bmap_bits_free bm i (k + 1)) n =
        clearCount (ext4_bmap_bit_clr (ext4_bmap_bits_free bm i k) (i + k)) n :=
      clearCount_congr fun j _ => bits_free_pointwise bm i k j
    have h2 : ext4_bmap_bits_free bm i k (i + k) = true := by
      simp only [ext4_bmap_bits_free]
      rw [if_neg (by omega)]
      exact hset (i + k) (by omega) (by omega)
    have h3 := clearCount_bit_clr (show i + k < n by omega) h2
    have h4 := ih (fun t ht1 ht2 => hset t ht1 (by omega)) (by omega)
    omega

/-! ### Sums of per-group counters -/

theorem sum_upd (f : ℕ → ℕ) (g v G : ℕ) (h : g < G) :
    Finset.sum (Finset.range G) (upd f g v) + f g =
      Finset.sum (Finset.range G) f + v := by
  have hg : g ∈ Finset.range G := Finset.mem_range.mpr h
  rw [← Finset.add_sum_erase _ (upd f g v) hg, ← Finset.add_sum_erase _ f hg]
  have hv : upd f g v g = v := by simp [upd]
  have hrest : Finset.sum ((Finset.range G).erase g) (upd f g v) =
      Finset.sum ((Finset.range G).erase g) f := by
    apply Finset.sum_congr rfl
    intro x hx
    have : x ≠ g := Finset.ne_of_mem_erase hx
    simp [upd, this]
  rw [hv, hrest]
  ring

theorem le_sum_of_mem (f : ℕ → ℕ) {g G : ℕ} (h : g < G) :
    f g ≤ Finset.sum (Finset.range G) f :=
  Finset.single_le_sum (fun i _ => Nat.zero_le (f i)) (Finset.mem_range.mpr h)

theorem sum_le_of_forall_le {f : ℕ → ℕ} {c G : ℕ} (h : ∀ g, g < G → f g ≤ c) :
    Finset.sum (Finset.range G) f ≤ G * c := by
  calc Finset.sum (Finset.range G) f ≤ Finset.sum (Finset.range G) (fun _ => c) :=
        Finset.sum_le_sum fun i hi => h i (Finset.mem_range.mp hi)
    _ = G * c := by rw [Finset.sum_const, Finset.card_range, smul_eq_mul]

/-! ### Field computations of the composed transitions -/

theorem allocStep_sbFree (env : Env) (st : FsState) (g j : ℕ) :
    (applyAllocCounters env (claimCommit env st g j) g).sbFree =
      sub64 st.sbFree 1 := by
  simp [applyAllocCounters]

theorem allocStep_bgFree (env : Env) (st : FsState) (g j : ℕ) :
    (applyAllocCounters env (claimCommit env st g j) g).bgFree =
      upd st.bgFree g (sub32 (st.bgFree g) 1) := by
  simp [applyAllocCounters]

theorem allocStep_inoBlocks (env : Env) (st : FsState) (g j : ℕ) :
    (applyAllocCounters env (claimCommit env st g j) g).inoBlocks =
      add64 st.inoBlocks (env.sb.block_size / EXT4_INODE_BLOCK_SIZE) := by
  simp [applyAllocCounters]

theorem allocStep_bitmap (env : Env) (st : FsState) (g j : ℕ) :
    (applyAllocCounters env (claimCommit env st g j) g).bitmap =
      upd st.bitmap g (ext4_bmap_bit_set (st.bitmap g) j) := by
  simp [applyAllocCounters]

theorem rangeStep_sbFree (env : Env) (st : FsState) (g i k : ℕ) :
    (applyFreeCounters env (rangeCommit env st g i k) g k).sbFree =
      add64 st.sbFree k := by
  simp [applyFreeCounters]

theorem rangeStep_bgFree (env : Env) (st : FsState) (g i k : ℕ) :
    (applyFreeCounters env (rangeCommit env st g i k) g k).bgFree =
      upd st.bgFree g (add32 (st.bgFree g) k) := by
  simp [applyFreeCounters]

theorem rangeStep_inoBlocks (env : Env) (st : FsState) (g i k : ℕ) :
    (applyFreeCounters env (rangeCommit env st g i k) g k).inoBlocks =
      sub64 st.inoBlocks (k * (env.sb.block_size / EXT4_INODE_BLOCK_SIZE)) := by
  simp [applyFreeCounters]

theorem rangeStep_bitmap (env : Env) (st : FsState) (g i k : ℕ) :
    (applyFreeCounters env (rangeCommit env st g i k) g k).bitmap =
      upd st.bitmap g (ext4_bmap_bits_free (st.bitmap g) i k) := by
  simp [applyFreeCounters]

/-! ### Invariant preservation of the elementary transitions -/

theorem bgFree_le_bpg {env : Env} {st : FsState} (hc : Consistent env st) :
    ∀ g, g < ext4_block_group_cnt env.sb →
      st.bgFree g ≤ env.sb.blocks_per_group := by
  intro g hg
  rw [hc.2.1 g hg]
  exact le_trans (clearCount_le _ _) (hc.1.2.2.2.2.2 g hg)

theorem sbFree_lt_U64 {env : Env} {st : FsState} (hc : Consistent env st) :
    st.sbFree < U64 := by
  have hsum := hc.2.2.1
  have hbd := sum_le_of_forall_le (bgFree_le_bpg hc)
  have hlt := hc.1.2.2.2.1
  omega

/-- Claiming a clear in-prefix bit of a valid group and performing the three
`success:` counter updates preserves counter coherence. -/
theorem consistent_claim {env : Env} {st : FsState} {g j : ℕ}
    (hc : Consistent env st) (hg : g < ext4_block_group_cnt env.sb)
    (hj : j < ext4_blocks_in_group_cnt env.sb g)
    (hclear : st.bitmap g j = false) :
    Consistent env (applyAllocCounters env (claimCommit env st g j) g) := by
  have hgeom := hc.1
  have hcount := hc.2.1
  have hsum := hc.2.2.1
  have hpad := hc.2.2.2
  have hcfree : 1 ≤ st.bgFree g := by
    rw [hcount g hg]; exact clearCount_pos hj hclear
  have hsbpos : 1 ≤ st.sbFree := by
    rw [hsum]; exact le_trans hcfree (le_sum_of_mem st.bgFree hg)
  have hsblt : st.sbFree < U64 := sbFree_lt_U64 hc
  have hbglt : st.bgFree g < U32 :=
    lt_of_le_of_lt (bgFree_le_bpg hc g hg) hgeom.2.1
  refine ⟨hgeom, ?_, ?_, ?_⟩
  · intro g' hg'
    rw [allocStep_bgFree, allocStep_bitmap]
    by_cases hgg : g' = g
    · subst hgg
      have h1 : upd st.bgFree g' (sub32 (st.bgFree g') 1) g' =
          sub32 (st.bgFree g') 1 := by simp [upd]
      have h2 : upd st.bitmap g' (ext4_bmap_bit_set (st.bitmap g') j) g' =
          ext4_bmap_bit_set (st.bitmap g') j := by simp [upd]
      rw [h1, h2, sub32_eq_of_le hcfree hbglt]
      have h3 := clearCount_bit_set hj hclear
      have h4 := hcount g' hg'
      omega
    · have h1 : upd st.bgFree g (sub32 (st.bgFree g) 1) g' = st.bgFree g' := by
        simp [upd, hgg]
      have h2 : upd st.bitmap g (ext4_bmap_bit_set (st.bitmap g) j) g' =
          st.bitmap g' := by simp [upd, hgg]
      rw [h1, h2]
      exact hcount g' hg'
  · rw [allocStep_sbFree, allocStep_bgFree,
      sub64_eq_of_le hsbpos hsblt, sub32_eq_of_le hcfree hbglt]
    have hsu := sum_upd st.bgFree g (st.bgFree g - 1)
      (ext4_block_group_cnt env.sb) hg
    omega
  · intro g' hg' i hi
    rw [allocStep_bitmap]
    by_cases hgg : g' = g
    · subst hgg
      have h2 : upd st.bitmap g' (ext4_bmap_bit_set (st.bitmap g') j) g' =
          ext4_bmap_bit_set (st.bitmap g') j := by simp [upd]
      rw [h2]
      unfold ext4_bmap_bit_set
      split
      · rfl
      · exact hpad g' hg' i hi
    · have h2 : upd st.bitmap g (ext4_bmap_bit_set (st.bitmap g) j) g' =
          st.bitmap g' := by simp [upd, hgg]
      rw [h2]
      exact hpad g' hg' i hi

/-- Clearing `k` consecutive set bits inside the valid prefix of a valid group
and performing the three free-side counter updates (with increment `k`)
preserves counter coherence. -/
theorem consistent_range {env : Env} {st : FsState} {g i k : ℕ}
    (hc : Consistent env st) (hg : g < ext4_block_group_cnt env.sb)
    (hik : i + k ≤ ext4_blocks_in_group_cnt env.sb g)
    (hset : ∀ t, i ≤ t → t < i + k → st.bitmap g t = true) :
    Consistent env (applyFreeCounters env (rangeCommit env st g i k) g k) := by
  have hgeom := hc.1
  have hcount := hc.2.1
  have hsum := hc.2.2.1
  have hpad := hc.2.2.2
  have hcck : clearCount (st.bitmap g) (ext4_blocks_in_group_cnt env.sb g) + k ≤
      ext4_blocks_in_group_cnt env.sb g := by
    rw [← clearCount_bits_free hset hik]
    exact clearCount_le _ _
  have hbgk : st.bgFree g + k < U32 := by
    rw [hcount g hg]
    exact lt_of_le_of_lt (le_trans hcck (hgeom.2.2.2.2.2 g hg)) hgeom.2.1
  have hupd_le : ∀ g', g' < ext4_block_group_cnt env.sb →
      upd st.bgFree g (st.bgFree g + k) g' ≤ env.sb.blocks_per_group := by
    intro g' hg'
    by_cases hgg : g' = g
    · subst hgg
      have h1 : upd st.bgFree g' (st.bgFree g' + k) g' = st.bgFree g' + k := by
        simp [upd]
      rw [h1, hcount g' hg']
      exact le_trans hcck (hgeom.2.2.2.2.2 g' hg')
    · have h1 : upd st.bgFree g (st.bgFree g + k) g' = st.bgFree g' := by
        simp [upd, hgg]
      rw [h1]
      exact bgFree_le_bpg hc g' hg'
  have hsbk : st.sbFree + k < U64 := by
    have h2 := sum_le_of_forall_le hupd_le
    have hsu := sum_upd st.bgFree g (st.bgFree g + k)
      (ext4_block_group_cnt env.sb) hg
    have h3 := hgeom.2.2.2.1
    omega
  refine ⟨hgeom, ?_, ?_, ?_⟩
  · intro g' hg'
    rw [rangeStep_bgFree, rangeStep_bitmap]
    by_cases hgg : g' = g
    · subst hgg
      have h1 : upd st.bgFree g' (add32 (st.bgFree g') k) g' =
          add32 (st.bgFree g') k := by simp [upd]
      have h2 : upd st.bitmap g' (ext4_bmap_bits_free (st.bitmap g') i k) g' =
          ext4_bmap_bits_free (st.bitmap g') i k := by simp [upd]
      rw [h1, h2, add32_eq_of_lt hbgk, clearCount_bits_free hset hik]
      have h4 := hcount g' hg'
      omega
    · have h1 : upd st.bgFree g (add32 (st.bgFree g) k) g' = st.bgFree g' := by
        simp [upd, hgg]
      have h2 : upd st.bitmap g (ext4_bmap_bits_free (st.bitmap g) i k) g' =
          st.bitmap g' := by simp [upd, hgg]
      rw [h1, h2]
      exact hcount g' hg'
  · rw [rangeStep_sbFree, rangeStep_bgFree,
      add64_eq_of_lt hsbk, add32_eq_of_lt hbgk]
    have hsu := sum_upd st.bgFree g (st.bgFree g + k)
      (ext4_block_group_cnt env.sb) hg
    omega
  · intro g' hg' i' hi'
    rw [rangeStep_bitmap]
    by_cases hgg : g' = g
    · subst hgg
      have h2 : upd st.bitmap g' (ext4_bmap_bits_free (st.bitmap g') i k) g' =
          ext4_bmap_bits_free (st.bitmap g') i k := by simp [upd]
      rw [h2]
      unfold ext4_bmap_bits_free
      rw [if_neg (by omega)]
      exact hpad g' hg' i' hi'
    · have h2 : upd st.bitmap g (ext4_bmap_bits_free (st.bitmap g) i k) g' =
          st.bitmap g' := by simp [upd, hgg]
      rw [h2]
      exact hpad g' hg' i' hi'

theorem bit_clr_eq_bits_free_one (bm : Bitmap) (i : ℕ) :
    ext4_bmap_bit_clr bm i = ext4_bmap_bits_free bm i 1 := by
  funext j
  unfold ext4_bmap_bit_clr ext4_bmap_bits_free
  by_cases h : j = i
  · subst h; rw [if_pos rfl, if_pos (by omega)]
  · rw [if_neg h, if_neg (by omega)]

theorem freeOne_eq_range (env : Env) (st : FsState) (g i : ℕ) :
    applyFreeCounters env (freeOneCommit env st g i) g 1 =
      applyFreeCounters env (rangeCommit env st g i 1) g 1 := by
  unfold applyFreeCounters freeOneCommit rangeCommit
  rw [bit_clr_eq_bits_free_one]

/-- Clearing one set in-prefix bit of a valid group and performing the three
free-side counter updates (increment 1) preserves counter coherence. -/
theorem consistent_free_one {env : Env} {st : FsState} {g i : ℕ}
    (hc : Consistent env st) (hg : g < ext4_block_group_cnt env.sb)
    (hi : i < ext4_blocks_in_group_cnt env.sb g)
    (hset : st.bitmap g i = true) :
    Consistent env (applyFreeCounters env (freeOneCommit env st g i) g 1) := by
  rw [freeOne_eq_range]
  exact consistent_range hc hg (by omega)
    (fun t ht1 ht2 => by
      have ht : t = i := by omega
      rw [ht]; exact hset)

/-! ### Checksum field computations -/

theorem set_bitmap_csum_csumLo (env : Env) (st : FsState) (g : ℕ) (bm : Bitmap) :
    (ext4_balloc_set_bitmap_csum env st g bm).csumLo =
      upd st.csumLo g (ext4_balloc_bitmap_csum env bm % 2 ^ 16) := by
  unfold ext4_balloc_set_bitmap_csum; split <;> rfl

theorem bitmap_csum_lt (env : Env) (bm : Bitmap) :
    ext4_balloc_bitmap_csum env bm < U32 := by
  unfold ext4_balloc_bitmap_csum
  split
  · exact Nat.mod_lt _ (by unfold U32; norm_num)
  · unfold U32; norm_num

/-! ### Claim C10: geometry formula for the start of a block group -/

/-- Claim C10, as frozen, is false on the code: in
`ext4_balloc_get_block_of_bgid` the product `bgid * blocks_per_group`
multiplies two `uint32_t` values in 32-bit arithmetic, so for the valid group
id 65536 of a filesystem with 65536 blocks per group (65537 groups, 8-KiB
blocks) it wraps to 0 and the function returns 1 instead of 2^32 + 1. -/
theorem c10_counterexample :
    65536 < ext4_block_group_cnt sbTrunc ∧
    ext4_balloc_get_block_of_bgid sbTrunc 65536 ≠
      (if sbTrunc.first_data_block ≠ 0 then 1 else 0) +
        65536 * sbTrunc.blocks_per_group := by
  constructor
  · decide
  · intro h
    simp [ext4_balloc_get_block_of_bgid, sbTrunc, U32] at h

/-- Claim C10, amended: for every group id,
`first_block_of(bgid) = (first_data_block ? 1 : 0) + (bgid * blocks_per_group
mod 2^32)`; the product is exact (no truncation) whenever
`bgid * blocks_per_group < 2^32`. -/
theorem c10_first_block_of_bgid (s : Sblock) (bgid : ℕ) :
    ext4_balloc_get_block_of_bgid s bgid =
      (if s.first_data_block ≠ 0 then 1 else 0) +
        bgid * s.blocks_per_group % U32 ∧
    (bgid * s.blocks_per_group < U32 →
      ext4_balloc_get_block_of_bgid s bgid =
        (if s.first_data_block ≠ 0 then 1 else 0) + bgid * s.blocks_per_group) := by
  constructor
  · rfl
  · intro h
    unfold ext4_balloc_get_block_of_bgid
    rw [Nat.mod_eq_of_lt h]

/-- Witness for the amended C10 at a concrete in-range input. -/
theorem c10_witness :
    3 * sbSmall.blocks_per_group < U32 ∧
    ext4_balloc_get_block_of_bgid sbSmall 3 = 1 + 3 * sbSmall.blocks_per_group :=
  ⟨by decide, (c10_first_block_of_bgid sbSmall 3).2 (by decide)⟩

/-! ### Claim C9: checksum stamping -/

/-- Claim C9: on every bitmap mutation the stamped checksum is
`crc32c(crc32c(~0, uuid), bitmap[0 .. blocks_per_group/8))` when the
metadata-checksum feature is on and 0 when it is off; `csum_lo` always
receives the low 16 bits, and `csum_hi` receives the high 16 bits exactly when
the descriptor size is the 64-byte maximum (otherwise it is not written). -/
theorem c9_checksum_stamping (env : Env) (st : FsState) (g : ℕ) (bm : Bitmap) :
    (env.sb.feature_metadata_csum = true →
      ext4_balloc_bitmap_csum env bm =
        env.crc32c (env.crc32c (U32 - 1) env.sb.uuid % U32)
          (bitmapBytes bm (env.sb.blocks_per_group / 8)) % U32) ∧
    (env.sb.feature_metadata_csum = false → ext4_balloc_bitmap_csum env bm = 0) ∧
    (ext4_balloc_set_bitmap_csum env st g bm).csumLo g =
      ext4_balloc_bitmap_csum env bm % 2 ^ 16 ∧
    (env.sb.desc_size = EXT4_MAX_BLOCK_GROUP_DESCRIPTOR_SIZE →
      (ext4_balloc_set_bitmap_csum env st g bm).csumHi g =
        ext4_balloc_bitmap_csum env bm / 2 ^ 16) ∧
    (env.sb.desc_size ≠ EXT4_MAX_BLOCK_GROUP_DESCRIPTOR_SIZE →
      (ext4_balloc_set_bitmap_csum env st g bm).csumHi = st.csumHi) ∧
    ext4_balloc_bitmap_csum env bm / 2 ^ 16 < 2 ^ 16 := by
  refine ⟨?_, ?_, ?_, ?_, ?_, ?_⟩
  · intro h; unfold ext4_balloc_bitmap_csum; rw [if_pos h]
  · intro h; unfold ext4_balloc_bitmap_csum; rw [if_neg (by simp [h])]
  · rw [set_bitmap_csum_csumLo]; simp [upd]
  · intro h
    unfold ext4_balloc_set_bitmap_csum
    rw [if_pos h]
    simp [upd]
  · intro h
    unfold ext4_balloc_set_bitmap_csum
    rw [if_neg h]
  · have := bitmap_csum_lt env bm
    unfold U32 at this
    omega

/-- Witness for C9: concrete stamping with the feature on and 64-byte
descriptors. -/
theorem c9_witness :
    envCsum.sb.feature_metadata_csum = true ∧
    envCsum.sb.desc_size = EXT4_MAX_BLOCK_GROUP_DESCRIPTOR_SIZE ∧
    ext4_balloc_bitmap_csum envCsum (stEmpty.bitmap 0) =
      envCsum.crc32c (envCsum.crc32c (U32 - 1) envCsum.sb.uuid % U32)
        (bitmapBytes (stEmpty.bitmap 0) (envCsum.sb.blocks_per_group / 8)) % U32 ∧
    (ext4_balloc_set_bitmap_csum envCsum stEmpty 0 (stEmpty.bitmap 0)).csumHi 0 =
      ext4_balloc_bitmap_csum envCsum (stEmpty.bitmap 0) / 2 ^ 16 :=
  ⟨rfl, rfl,
    (c9_checksum_stamping envCsum stEmpty 0 (stEmpty.bitmap 0)).1 rfl,
    (c9_checksum_stamping envCsum stEmpty 0 (stEmpty.bitmap 0)).2.2.2.1 rfl⟩

/-! ### Claim C3: group handle release on error paths -/

/-- Claim C3 is contradicted by the code: with the goal bit of its group taken
and the right neighbor clear, a failed bitmap store in the goal-neighborhood
scan of `ext4_balloc_alloc_block` (lines 368-370) returns the error code with
the group handle still held (one successful `ext4_fs_get_block_group_ref`,
zero `ext4_fs_put_block_group_ref`).  The spec itself flags this leak as a
defect (§5, §9), so the code, not the claim, is wrong. -/
theorem c3_handle_leak :
    (ext4_balloc_alloc_block envSmall (failSched 5) stOneUsed 2).rc = 5 ∧
    (ext4_balloc_alloc_block envSmall (failSched 5) stOneUsed 2).gets = 1 ∧
    (ext4_balloc_alloc_block envSmall (failSched 5) stOneUsed 2).puts = 0 := by
  decide

/-! ### Claim C2: atomicity on bitmap-store failure -/

/-- Claim C2: in `free_one`, each per-group iteration of `free_range`, `alloc`
and `try_one`, the superblock free count, the group free count, the inode
block count — and the committed bitmap — are modified only after
`ext4_block_set` succeeds: when that store fails with `e ≠ 0` the operation
returns `e` with all of them unchanged.  For `alloc` this is covered in three
parts: the goal-group phase (its bitmap store is fallible call 2 once the
goal group has free blocks, whether it claims the goal bit, a neighborhood
bit or a group-wide bit, or stores the unchanged buffer), an arbitrary
iteration of the linear-wrap loop entered at any call index with any visited
group that has free blocks (the claiming store of lines 455-466 is that
iteration's call `idx+2`), and the whole operation when the goal group is
empty and the store of the first wrap group fails (fallible call 4). -/
theorem c2_store_failure_atomicity (env : Env) (st : FsState)
    (e baddr goal first count fuel bg bg_last idx gets puts dirty : ℕ)
    (he : e ≠ 0) :
    ((ext4_balloc_free_block env (failSched e) st baddr).rc = e ∧
      (ext4_balloc_free_block env (failSched e) st baddr).st.sbFree = st.sbFree ∧
      (ext4_balloc_free_block env (failSched e) st baddr).st.bgFree = st.bgFree ∧
      (ext4_balloc_free_block env (failSched e) st baddr).st.inoBlocks =
        st.inoBlocks ∧
      (ext4_balloc_free_block env (failSched e) st baddr).st.bitmap =
        st.bitmap) ∧
    ((freeBlocksLoop env (failSchedAt (idx + 2) e) (fuel + 1) bg bg_last first
        count st idx gets puts dirty).rc = e ∧
      (freeBlocksLoop env (failSchedAt (idx + 2) e) (fuel + 1) bg bg_last first
        count st idx gets puts dirty).st.sbFree = st.sbFree ∧
      (freeBlocksLoop env (failSchedAt (idx + 2) e) (fuel + 1) bg bg_last first
        count st idx gets puts dirty).st.bgFree = st.bgFree ∧
      (freeBlocksLoop env (failSchedAt (idx + 2) e) (fuel + 1) bg bg_last first
        count st idx gets puts dirty).st.inoBlocks = st.inoBlocks ∧
      (freeBlocksLoop env (failSchedAt (idx + 2) e) (fuel + 1) bg bg_last first
        count st idx gets puts dirty).st.bitmap = st.bitmap) ∧
    (st.bgFree (ext4_balloc_get_bgid_of_block env.sb goal) ≠ 0 →
      (ext4_balloc_alloc_block env (failSched e) st goal).rc = e ∧
      (ext4_balloc_alloc_block env (failSched e) st goal).st.sbFree =
        st.sbFree ∧
      (ext4_balloc_alloc_block env (failSched e) st goal).st.bgFree =
        st.bgFree ∧
      (ext4_balloc_alloc_block env (failSched e) st goal).st.inoBlocks =
        st.inoBlocks ∧
      (ext4_balloc_alloc_block env (failSched e) st goal).st.bitmap =
        st.bitmap) ∧
    (st.bgFree bg ≠ 0 →
      (allocLoop env (failSchedAt (idx + 2) e) bg (count + 1) st idx gets puts
        dirty).rc = e ∧
      (allocLoop env (failSchedAt (idx + 2) e) bg (count + 1) st idx gets puts
        dirty).st.sbFree = st.sbFree ∧
      (allocLoop env (failSchedAt (idx + 2) e) bg (count + 1) st idx gets puts
        dirty).st.bgFree = st.bgFree ∧
      (allocLoop env (failSchedAt (idx + 2) e) bg (count + 1) st idx gets puts
        dirty).st.inoBlocks = st.inoBlocks ∧
      (allocLoop env (failSchedAt (idx + 2) e) bg (count + 1) st idx gets puts
        dirty).st.bitmap = st.bitmap) ∧
    (st.bgFree (ext4_balloc_get_bgid_of_block env.sb goal) = 0 →
      0 < ext4_block_group_cnt env.sb →
      st.bgFree ((ext4_balloc_get_bgid_of_block env.sb goal + 1) %
        ext4_block_group_cnt env.sb) ≠ 0 →
      (ext4_balloc_alloc_block env (failSchedAt 4 e) st goal).rc = e ∧
      (ext4_balloc_alloc_block env (failSchedAt 4 e) st goal).st.sbFree =
        st.sbFree ∧
      (ext4_balloc_alloc_block env (failSchedAt 4 e) st goal).st.bgFree =
        st.bgFree ∧
      (ext4_balloc_alloc_block env (failSchedAt 4 e) st goal).st.inoBlocks =
        st.inoBlocks ∧
      (ext4_balloc_alloc_block env (failSchedAt 4 e) st goal).st.bitmap =
        st.bitmap) ∧
    ((ext4_balloc_try_alloc_block env (failSched e) st baddr).rc = e ∧
      (ext4_balloc_try_alloc_block env (failSched e) st baddr).st.sbFree =
        st.sbFree ∧
      (ext4_balloc_try_alloc_block env (failSched e) st baddr).st.bgFree =
        st.bgFree ∧
      (ext4_balloc_try_alloc_block env (failSched e) st baddr).st.inoBlocks =
        st.inoBlocks ∧
      (ext4_balloc_try_alloc_block env (failSched e) st baddr).st.bitmap =
        st.bitmap) := by
  refine ⟨?_, ?_, ?_, ?_, ?_, ?_⟩
  · simp [ext4_balloc_free_block, failSched, EOK, he]
  · have h0 : failSchedAt (idx + 2) e idx = 0 := by
      unfold failSchedAt; rw [if_neg (by omega)]
    have h1 : failSchedAt (idx + 2) e (idx + 1) = 0 := by
      unfold failSchedAt; rw [if_neg (by omega)]
    have h2 : failSchedAt (idx + 2) e (idx + 2) = e := by
      unfold failSchedAt; rw [if_pos rfl]
    simp [freeBlocksLoop, h0, h1, h2, EOK, he]
  · intro hgoal
    unfold ext4_balloc_alloc_block
    simp only [failSched, EOK]
    norm_num
    rw [if_neg hgoal]
    simp only [if_neg he]
    repeat' split
    all_goals simp
  · intro hbg
    have h0 : failSchedAt (idx + 2) e idx = 0 := by
      unfold failSchedAt; rw [if_neg (by omega)]
    have h1 : failSchedAt (idx + 2) e (idx + 1) = 0 := by
      unfold failSchedAt; rw [if_neg (by omega)]
    have h2 : failSchedAt (idx + 2) e (idx + 2) = e := by
      unfold failSchedAt; rw [if_pos rfl]
    unfold allocLoop
    simp only [h0, h1, h2, EOK]
    norm_num
    rw [if_neg hbg]
    simp only [if_neg he]
    repeat' split
    all_goals simp
  · intro hgoal0 hG hg1
    obtain ⟨G', hG'⟩ : ∃ G', ext4_block_group_cnt env.sb = G' + 1 :=
      ⟨ext4_block_group_cnt env.sb - 1, by omega⟩
    rw [hG'] at hg1
    have s0 : failSchedAt 4 e 0 = 0 := by unfold failSchedAt; norm_num
    have s1 : failSchedAt 4 e 1 = 0 := by unfold failSchedAt; norm_num
    have s2 : failSchedAt 4 e 2 = 0 := by unfold failSchedAt; norm_num
    have s3 : failSchedAt 4 e 3 = 0 := by unfold failSchedAt; norm_num
    have s4 : failSchedAt 4 e 4 = e := by unfold failSchedAt; norm_num
    unfold ext4_balloc_alloc_block
    simp only [s0, s1, EOK]
    norm_num
    rw [if_pos hgoal0, hG']
    unfold allocLoop
    simp only [s2, s3, s4, EOK]
    norm_num
    rw [if_neg hg1]
    simp only [if_neg he]
    repeat' split
    all_goals simp
  · unfold ext4_balloc_try_alloc_block
    simp only [failSched, EOK]
    norm_num
    simp only [if_neg he]
    repeat' split
    all_goals simp

/-- Witness for C2: the store failure (code 7), for each of the four
operations — on the small one-group filesystem for free_one, the range loop,
the goal phase of alloc, try_one and a wrap-loop iteration, and on the
two-group flex filesystem with a full group 0 for the empty-goal-group run
of alloc into the wrap phase. -/
theorem c2_witness :
    (7 : ℕ) ≠ 0 ∧
    stEmpty.bgFree (ext4_balloc_get_bgid_of_block envSmall.sb 1) ≠ 0 ∧
    (ext4_balloc_free_block envSmall (failSched 7) stEmpty 1).rc = 7 ∧
    (ext4_balloc_free_block envSmall (failSched 7) stEmpty 1).st.sbFree =
      stEmpty.sbFree ∧
    (freeBlocksLoop envSmall (failSchedAt 2 7) 1 0 0 1 1 stEmpty 0 0 0 0).rc =
      7 ∧
    (ext4_balloc_alloc_block envSmall (failSched 7) stEmpty 1).st.sbFree =
      stEmpty.sbFree ∧
    (allocLoop envSmall (failSchedAt 2 7) 0 2 stEmpty 0 0 0 0).rc = 7 ∧
    (allocLoop envSmall (failSchedAt 2 7) 0 2 stEmpty 0 0 0 0).st.sbFree =
      stEmpty.sbFree ∧
    stFlexHalf.bgFree (ext4_balloc_get_bgid_of_block envFlex.sb 0) = 0 ∧
    (ext4_balloc_alloc_block envFlex (failSchedAt 4 7) stFlexHalf 0).rc = 7 ∧
    (ext4_balloc_alloc_block envFlex (failSchedAt 4 7) stFlexHalf 0).st.bgFree =
      stFlexHalf.bgFree ∧
    (ext4_balloc_try_alloc_block envSmall (failSched 7) stEmpty 1).st.bitmap =
      stEmpty.bitmap := by
  have h := c2_store_failure_atomicity envSmall stEmpty 7 1 1 1 1 0 0 0 0 0 0 0
    (by decide)
  have h2 := c2_store_failure_atomicity envFlex stFlexHalf 7 0 0 0 0 0 0 0 0 0
    0 0 (by decide)
  exact ⟨by decide, by decide, h.1.1, h.1.2.1, h.2.1.1,
    (h.2.2.1 (by decide)).2.1,
    (h.2.2.2.1 (by decide)).1, (h.2.2.2.1 (by decide)).2.1,
    by decide,
    (h2.2.2.2.2.1 (by decide) (by decide) (by decide)).1,
    (h2.2.2.2.2.1 (by decide) (by decide) (by decide)).2.2.1,
    h.2.2.2.2.2.2.2.2.2⟩

/-! ### Claim C7: try_one semantics -/

/-- Claim C7: `try_one(inode, baddr)` reports in `was_free` whether bit
`index_in_group(baddr)` of group `bgid_of(baddr)` was clear before the call;
if it was clear the bit is set, the checksum stamped, the bitmap marked dirty
and the three counters updated as for a successful `alloc` (superblock −1,
group −1, inode +`block_size/512`, in the C unsigned arithmetic); if it was
already set, `try_one` returns success with the bitmap contents and all three
counters unchanged. -/
theorem c7_try_one_semantics (env : Env) (st : FsState) (baddr : ℕ) :
    (ext4_balloc_try_alloc_block env okSched st baddr).wasFree =
      some (ext4_bmap_is_bit_clr
        (st.bitmap (ext4_balloc_get_bgid_of_block env.sb baddr))
        (ext4_fs_baddr2_index_in_group env.sb baddr)) ∧
    (st.bitmap (ext4_balloc_get_bgid_of_block env.sb baddr)
        (ext4_fs_baddr2_index_in_group env.sb baddr) = false →
      (ext4_balloc_try_alloc_block env okSched st baddr).rc = EOK ∧
      (ext4_balloc_try_alloc_block env okSched st baddr).dirtyMarks = 1 ∧
      (ext4_balloc_try_alloc_block env okSched st baddr).st.bitmap
        (ext4_balloc_get_bgid_of_block env.sb baddr)
        (ext4_fs_baddr2_index_in_group env.sb baddr) = true ∧
      (∀ i', i' ≠ ext4_fs_baddr2_index_in_group env.sb baddr →
        (ext4_balloc_try_alloc_block env okSched st baddr).st.bitmap
          (ext4_balloc_get_bgid_of_block env.sb baddr) i' =
          st.bitmap (ext4_balloc_get_bgid_of_block env.sb baddr) i') ∧
      (∀ g', g' ≠ ext4_balloc_get_bgid_of_block env.sb baddr →
        (ext4_balloc_try_alloc_block env okSched st baddr).st.bitmap g' =
          st.bitmap g') ∧
      (ext4_balloc_try_alloc_block env okSched st baddr).st.csumLo
          (ext4_balloc_get_bgid_of_block env.sb baddr) =
        ext4_balloc_bitmap_csum env
          (ext4_bmap_bit_set
            (st.bitmap (ext4_balloc_get_bgid_of_block env.sb baddr))
            (ext4_fs_baddr2_index_in_group env.sb baddr)) % 2 ^ 16 ∧
      (ext4_balloc_try_alloc_block env okSched st baddr).st.sbFree =
        sub64 st.sbFree 1 ∧
      (ext4_balloc_try_alloc_block env okSched st baddr).st.bgFree
          (ext4_balloc_get_bgid_of_block env.sb baddr) =
        sub32 (st.bgFree (ext4_balloc_get_bgid_of_block env.sb baddr)) 1 ∧
      (∀ g', g' ≠ ext4_balloc_get_bgid_of_block env.sb baddr →
        (ext4_balloc_try_alloc_block env okSched st baddr).st.bgFree g' =
          st.bgFree g') ∧
      (ext4_balloc_try_alloc_block env okSched st baddr).st.inoBlocks =
        add64 st.inoBlocks (env.sb.block_size / EXT4_INODE_BLOCK_SIZE)) ∧
    (st.bitmap (ext4_balloc_get_bgid_of_block env.sb baddr)
        (ext4_fs_baddr2_index_in_group env.sb baddr) = true →
      (ext4_balloc_try_alloc_block env okSched st baddr).st = st ∧
      (ext4_balloc_try_alloc_block env okSched st baddr).rc = EOK ∧
      (ext4_balloc_try_alloc_block env okSched st baddr).dirtyMarks = 0) := by
  have hstruct : st.bitmap (ext4_balloc_get_bgid_of_block env.sb baddr)
      (ext4_fs_baddr2_index_in_group env.sb baddr) = false →
      (ext4_balloc_try_alloc_block env okSched st baddr).st =
        applyAllocCounters env
          (claimCommit env st (ext4_balloc_get_bgid_of_block env.sb baddr)
            (ext4_fs_baddr2_index_in_group env.sb baddr))
          (ext4_balloc_get_bgid_of_block env.sb baddr) ∧
      (ext4_balloc_try_alloc_block env okSched st baddr).rc = EOK ∧
      (ext4_balloc_try_alloc_block env okSched st baddr).dirtyMarks = 1 := by
    intro hbit
    unfold ext4_balloc_try_alloc_block
    simp only [okSched, EOK]
    norm_num
    simp [ext4_bmap_is_bit_clr, hbit]
  refine ⟨?_, ?_, ?_⟩
  · unfold ext4_balloc_try_alloc_block
    simp only [okSched, EOK]
    norm_num
    by_cases hbit : st.bitmap (ext4_balloc_get_bgid_of_block env.sb baddr)
        (ext4_fs_baddr2_index_in_group env.sb baddr)
    · simp [ext4_bmap_is_bit_clr, hbit]
    · simp [ext4_bmap_is_bit_clr, hbit]
  · intro hbit
    obtain ⟨hst, hrc, hdm⟩ := hstruct hbit
    refine ⟨hrc, hdm, ?_, ?_, ?_, ?_, ?_, ?_, ?_, ?_⟩
    · rw [hst, allocStep_bitmap]
      simp [upd, ext4_bmap_bit_set]
    · intro i' hi'
      rw [hst, allocStep_bitmap]
      simp [upd, ext4_bmap_bit_set, hi']
    · intro g' hg'
      rw [hst, allocStep_bitmap]
      simp [upd, hg']
    · rw [hst]
      unfold applyAllocCounters claimCommit
      rw [set_bitmap_csum_csumLo]
      simp [upd]
    · rw [hst, allocStep_sbFree]
    · rw [hst, allocStep_bgFree]
      simp [upd]
    · intro g' hg'
      rw [hst, allocStep_bgFree]
      simp [upd, hg']
    · rw [hst, allocStep_inoBlocks]
  · intro hbit
    unfold ext4_balloc_try_alloc_block
    simp only [okSched, EOK]
    norm_num
    simp [ext4_bmap_is_bit_clr, hbit]

/-- Witness for C7, following scenario S5 of the spec: `try_one(baddr = 5)` on
the fresh small filesystem claims the block (`was_free = true`, counters
moved), and the repeated call reports `was_free = false` changing nothing. -/
theorem c7_witness :
    stEmpty.bitmap (ext4_balloc_get_bgid_of_block envSmall.sb 5)
      (ext4_fs_baddr2_index_in_group envSmall.sb 5) = false ∧
    (ext4_balloc_try_alloc_block envSmall okSched stEmpty 5).wasFree =
      some true ∧
    (ext4_balloc_try_alloc_block envSmall okSched stEmpty 5).st.sbFree =
      sub64 stEmpty.sbFree 1 ∧
    (ext4_balloc_try_alloc_block envSmall okSched
        (ext4_balloc_try_alloc_block envSmall okSched stEmpty 5).st 5).wasFree =
      some false ∧
    (ext4_balloc_try_alloc_block envSmall okSched
        (ext4_balloc_try_alloc_block envSmall okSched stEmpty 5).st 5).st =
      (ext4_balloc_try_alloc_block envSmall okSched stEmpty 5).st := by
  refine ⟨by decide, ?_, ?_, ?_, ?_⟩
  · rw [(c7_try_one_semantics envSmall stEmpty 5).1]
    decide
  · exact ((c7_try_one_semantics envSmall stEmpty 5).2.1 (by decide)).2.2.2.2.2.2.1
  · rw [(c7_try_one_semantics envSmall
      (ext4_balloc_try_alloc_block envSmall okSched stEmpty 5).st 5).1]
    decide
  · exact ((c7_try_one_semantics envSmall
      (ext4_balloc_try_alloc_block envSmall okSched stEmpty 5).st 5).2.2
        (by decide)).1

/-! ### Claim C4: goal-group search order of alloc -/

/-- Claim C4: when the goal group's free counter is nonzero, `alloc` searches
the goal group with the goal's in-group index clamped up to the index of the
group's first block, in this order: (1) the goal bit itself — preferred even
if a lower index is clear; (2) if the goal bit is set, the first clear bit
among indices `i+1 .. end-1` where `end = min(blocks_in_group, (i+63) & ~63)`
(the and-not rounding written as `(i+63)/64*64`); (3) otherwise the first
clear bit of `[i, blocks_in_group)` found by the group-wide scan.  In each
stage the claimed index is set in the bitmap and the returned address is
`ext4_fs_index_in_group2_baddr` of the claimed index. -/
theorem c4_goal_group_search_order (env : Env) (st : FsState) (goal : ℕ)
    (hfree : st.bgFree (ext4_balloc_get_bgid_of_block env.sb goal) ≠ 0) :
    (st.bitmap (ext4_balloc_get_bgid_of_block env.sb goal)
        (clampedGoalIdx env goal) = false →
      (ext4_balloc_alloc_block env okSched st goal).rc = EOK ∧
      (ext4_balloc_alloc_block env okSched st goal).fblock =
        some (ext4_fs_index_in_group2_baddr env.sb (clampedGoalIdx env goal)
          (ext4_balloc_get_bgid_of_block env.sb goal)) ∧
      (ext4_balloc_alloc_block env okSched st goal).st.bitmap
        (ext4_balloc_get_bgid_of_block env.sb goal)
        (clampedGoalIdx env goal) = true) ∧
    (∀ j, st.bitmap (ext4_balloc_get_bgid_of_block env.sb goal)
        (clampedGoalIdx env goal) = true →
      clampedGoalIdx env goal + 1 ≤ j →
      j < min (ext4_blocks_in_group_cnt env.sb
          (ext4_balloc_get_bgid_of_block env.sb goal))
        ((clampedGoalIdx env goal + 63) / 64 * 64) →
      st.bitmap (ext4_balloc_get_bgid_of_block env.sb goal) j = false →
      (∀ t, clampedGoalIdx env goal + 1 ≤ t → t < j →
        st.bitmap (ext4_balloc_get_bgid_of_block env.sb goal) t = true) →
      (ext4_balloc_alloc_block env okSched st goal).rc = EOK ∧
      (ext4_balloc_alloc_block env okSched st goal).fblock =
        some (ext4_fs_index_in_group2_baddr env.sb j
          (ext4_balloc_get_bgid_of_block env.sb goal)) ∧
      (ext4_balloc_alloc_block env okSched st goal).st.bitmap
        (ext4_balloc_get_bgid_of_block env.sb goal) j = true) ∧
    (∀ j, st.bitmap (ext4_balloc_get_bgid_of_block env.sb goal)
        (clampedGoalIdx env goal) = true →
      (∀ t, clampedGoalIdx env goal + 1 ≤ t →
        t < min (ext4_blocks_in_group_cnt env.sb
            (ext4_balloc_get_bgid_of_block env.sb goal))
          ((clampedGoalIdx env goal + 63) / 64 * 64) →
        st.bitmap (ext4_balloc_get_bgid_of_block env.sb goal) t = true) →
      clampedGoalIdx env goal ≤ j →
      j < ext4_blocks_in_group_cnt env.sb
        (ext4_balloc_get_bgid_of_block env.sb goal) →
      st.bitmap (ext4_balloc_get_bgid_of_block env.sb goal) j = false →
      (∀ t, clampedGoalIdx env goal ≤ t → t < j →
        st.bitmap (ext4_balloc_get_bgid_of_block env.sb goal) t = true) →
      (ext4_balloc_alloc_block env okSched st goal).rc = EOK ∧
      (ext4_balloc_alloc_block env okSched st goal).fblock =
        some (ext4_fs_index_in_group2_baddr env.sb j
          (ext4_balloc_get_bgid_of_block env.sb goal)) ∧
      (ext4_balloc_alloc_block env okSched st goal).st.bitmap
        (ext4_balloc_get_bgid_of_block env.sb goal) j = true) := by
  have hclamp : (if ext4_fs_baddr2_index_in_group env.sb goal <
      ext4_fs_baddr2_index_in_group env.sb
        (ext4_balloc_get_block_of_bgid env.sb
          (ext4_balloc_get_bgid_of_block env.sb goal)) then
      ext4_fs_baddr2_index_in_group env.sb
        (ext4_balloc_get_block_of_bgid env.sb
          (ext4_balloc_get_bgid_of_block env.sb goal))
    else ext4_fs_baddr2_index_in_group env.sb goal) =
      clampedGoalIdx env goal := rfl
  have hend : (if ext4_blocks_in_group_cnt env.sb
        (ext4_balloc_get_bgid_of_block env.sb goal) <
        (clampedGoalIdx env goal + 63) / 64 * 64 then
      ext4_blocks_in_group_cnt env.sb (ext4_balloc_get_bgid_of_block env.sb goal)
    else (clampedGoalIdx env goal + 63) / 64 * 64) =
      min (ext4_blocks_in_group_cnt env.sb
        (ext4_balloc_get_bgid_of_block env.sb goal))
      ((clampedGoalIdx env goal + 63) / 64 * 64) := by
    rw [Nat.min_def]; split <;> split <;> omega
  refine ⟨?_, ?_, ?_⟩
  · intro hbit
    unfold ext4_balloc_alloc_block
    simp only [okSched, EOK]
    norm_num
    rw [if_neg hfree, hclamp]
    rw [show ext4_bmap_is_bit_clr
        (st.bitmap (ext4_balloc_get_bgid_of_block env.sb goal))
        (clampedGoalIdx env goal) = true by
      unfold ext4_bmap_is_bit_clr; rw [hbit]; rfl]
    simp [applyAllocCounters, upd, ext4_bmap_bit_set, allocSuccess, okSched,
      EOK]
  · intro j hbit hj1 hj2 hjclr hleast
    unfold ext4_balloc_alloc_block
    simp only [okSched, EOK]
    norm_num
    rw [if_neg hfree, hclamp]
    rw [show ext4_bmap_is_bit_clr
        (st.bitmap (ext4_balloc_get_bgid_of_block env.sb goal))
        (clampedGoalIdx env goal) = false by
      unfold ext4_bmap_is_bit_clr; rw [hbit]; rfl]
    rw [hend, find_clr_some.mpr ⟨hj1, hj2, hjclr, hleast⟩]
    simp [applyAllocCounters, upd, ext4_bmap_bit_set, allocSuccess, okSched,
      EOK]
  · intro j hbit hnone hj1 hj2 hjclr hleast
    unfold ext4_balloc_alloc_block
    simp only [okSched, EOK]
    norm_num
    rw [if_neg hfree, hclamp]
    rw [show ext4_bmap_is_bit_clr
        (st.bitmap (ext4_balloc_get_bgid_of_block env.sb goal))
        (clampedGoalIdx env goal) = false by
      unfold ext4_bmap_is_bit_clr; rw [hbit]; rfl]
    rw [hend, find_clr_none.mpr hnone, find_clr_some.mpr ⟨hj1, hj2, hjclr, hleast⟩]
    simp [applyAllocCounters, upd, ext4_bmap_bit_set, allocSuccess, okSched,
      EOK]

/-- Witness for C4: on the small filesystem with in-group bit 1 taken,
`alloc(goal = 2)` (goal bit set, right neighbor clear) claims index 2 by the
neighborhood stage and returns block address 3; on the fresh filesystem
`alloc(goal = 1)` claims the goal bit itself and returns address 1. -/
theorem c4_witness :
    stEmpty.bgFree (ext4_balloc_get_bgid_of_block envSmall.sb 1) ≠ 0 ∧
    stEmpty.bitmap (ext4_balloc_get_bgid_of_block envSmall.sb 1)
      (clampedGoalIdx envSmall 1) = false ∧
    (ext4_balloc_alloc_block envSmall okSched stEmpty 1).fblock = some 1 ∧
    stOneUsed.bgFree (ext4_balloc_get_bgid_of_block envSmall.sb 2) ≠ 0 ∧
    stOneUsed.bitmap (ext4_balloc_get_bgid_of_block envSmall.sb 2)
      (clampedGoalIdx envSmall 2) = true ∧
    stOneUsed.bitmap (ext4_balloc_get_bgid_of_block envSmall.sb 2) 2 = false ∧
    (ext4_balloc_alloc_block envSmall okSched stOneUsed 2).fblock = some 3 := by
  refine ⟨by decide, by decide, ?_, by decide, by decide, by decide, ?_⟩
  · have h := ((c4_goal_group_search_order envSmall stEmpty 1 (by decide)).1
      (by decide)).2.1
    rw [h]; decide
  · have hc : clampedGoalIdx envSmall 2 = 1 := by decide
    have h := ((c4_goal_group_search_order envSmall stOneUsed 2 (by decide)).2.1
      2 (by decide) (by decide) (by decide) (by decide)
      (fun t ht1 ht2 => by rw [hc] at ht1; omega)).2.1
    rw [h]; decide

/-! ### Claim C5: the no-space result of alloc -/

/-- The linear-wrap loop returns `ENOSPC` with the state untouched and no
bitmap marked dirty when every group either has a zero free counter or no
clear bit in its scanned range. -/
theorem allocLoop_nospace (env : Env) (st : FsState)
    (hG : 0 < ext4_block_group_cnt env.sb)
    (hall : ∀ g, g < ext4_block_group_cnt env.sb →
      st.bgFree g = 0 ∨
      ext4_bmap_bit_find_clr (st.bitmap g) (groupScanStart env g)
        (ext4_blocks_in_group_cnt env.sb g) = none) :
    ∀ count bgid idx gets puts dirty, bgid < ext4_block_group_cnt env.sb →
      (allocLoop env okSched bgid count st idx gets puts dirty).rc = ENOSPC ∧
      (allocLoop env okSched bgid count st idx gets puts dirty).st = st ∧
      (allocLoop env okSched bgid count st idx gets puts dirty).dirtyMarks =
        dirty ∧
      (allocLoop env okSched bgid count st idx gets puts dirty).fblock = none := by
  intro count
  induction count with
  | zero =>
    intro bgid idx gets puts dirty hbg
    exact ⟨rfl, rfl, rfl, rfl⟩
  | succ count ih =>
    intro bgid idx gets puts dirty hbg
    have hmod : (bgid + 1) % ext4_block_group_cnt env.sb <
        ext4_block_group_cnt env.sb := Nat.mod_lt _ hG
    unfold allocLoop
    simp only [okSched, EOK]
    norm_num
    rcases hall bgid hbg with hfree | hfind
    · rw [if_pos hfree]
      exact ih _ _ _ _ _ hmod
    · by_cases hfree : st.bgFree bgid = 0
      · rw [if_pos hfree]
        exact ih _ _ _ _ _ hmod
      · rw [if_neg hfree]
        have hfind' : ext4_bmap_bit_find_clr (st.bitmap bgid)
            (ext4_fs_baddr2_index_in_group env.sb
              (ext4_balloc_get_block_of_bgid env.sb bgid))
            (ext4_blocks_in_group_cnt env.sb bgid) = none := hfind
        rw [hfind']
        exact ih _ _ _ _ _ hmod

/-- Claim C5: if the goal group either has free count zero or no clear bit in
its searched range (the clamped goal bit and everything from it to the end of
the group), and every group — all of which the wrap loop visits cyclically
from `(goal_group + 1) mod G` for at most `G` groups — either has free count
zero or no clear bit from its scan start, then `alloc` returns `ENOSPC` with
the filesystem state unchanged, no bitmap marked dirty, and no output block
written. -/
theorem c5_no_space (env : Env) (st : FsState) (goal : ℕ)
    (hG : 0 < ext4_block_group_cnt env.sb)
    (hgoalgrp : st.bgFree (ext4_balloc_get_bgid_of_block env.sb goal) = 0 ∨
      (st.bitmap (ext4_balloc_get_bgid_of_block env.sb goal)
          (clampedGoalIdx env goal) = true ∧
        ∀ t, clampedGoalIdx env goal ≤ t →
          t < ext4_blocks_in_group_cnt env.sb
            (ext4_balloc_get_bgid_of_block env.sb goal) →
          st.bitmap (ext4_balloc_get_bgid_of_block env.sb goal) t = true))
    (hall : ∀ g, g < ext4_block_group_cnt env.sb →
      st.bgFree g = 0 ∨
      ∀ t, groupScanStart env g ≤ t → t < ext4_blocks_in_group_cnt env.sb g →
        st.bitmap g t = true) :
    (ext4_balloc_alloc_block env okSched st goal).rc = ENOSPC ∧
    (ext4_balloc_alloc_block env okSched st goal).st = st ∧
    (ext4_balloc_alloc_block env okSched st goal).dirtyMarks = 0 ∧
    (ext4_balloc_alloc_block env okSched st goal).fblock = none := by
  have hallfind : ∀ g, g < ext4_block_group_cnt env.sb →
      st.bgFree g = 0 ∨
      ext4_bmap_bit_find_clr (st.bitmap g) (groupScanStart env g)
        (ext4_blocks_in_group_cnt env.sb g) = none := by
    intro g hg
    exact (hall g hg).imp id fun h => find_clr_none.mpr fun t ht1 ht2 => h t ht1 ht2
  have hclamp : (if ext4_fs_baddr2_index_in_group env.sb goal <
      ext4_fs_baddr2_index_in_group env.sb
        (ext4_balloc_get_block_of_bgid env.sb
          (ext4_balloc_get_bgid_of_block env.sb goal)) then
      ext4_fs_baddr2_index_in_group env.sb
        (ext4_balloc_get_block_of_bgid env.sb
          (ext4_balloc_get_bgid_of_block env.sb goal))
    else ext4_fs_baddr2_index_in_group env.sb goal) =
      clampedGoalIdx env goal := rfl
  unfold ext4_balloc_alloc_block
  simp only [okSched, EOK]
  norm_num
  by_cases hfree : st.bgFree (ext4_balloc_get_bgid_of_block env.sb goal) = 0
  · rw [if_pos hfree]
    exact allocLoop_nospace env st hG hallfind _ _ _ _ _ _ (Nat.mod_lt _ hG)
  · rw [if_neg hfree, hclamp]
    rcases hgoalgrp with h | ⟨hbit, hset⟩
    · exact absurd h hfree
    · rw [show ext4_bmap_is_bit_clr
          (st.bitmap (ext4_balloc_get_bgid_of_block env.sb goal))
          (clampedGoalIdx env goal) = false by
        unfold ext4_bmap_is_bit_clr; rw [hbit]; rfl]
      have hn1 : ext4_bmap_bit_find_clr
          (st.bitmap (ext4_balloc_get_bgid_of_block env.sb goal))
          (clampedGoalIdx env goal + 1)
          (if ext4_blocks_in_group_cnt env.sb
              (ext4_balloc_get_bgid_of_block env.sb goal) <
              (clampedGoalIdx env goal + 63) / 64 * 64 then
            ext4_blocks_in_group_cnt env.sb
              (ext4_balloc_get_bgid_of_block env.sb goal)
          else (clampedGoalIdx env goal + 63) / 64 * 64) = none :=
        find_clr_none.mpr fun t ht1 ht2 =>
          hset t (by omega) (by revert ht2; split <;> omega)
      rw [hn1]
      have hn2 : ext4_bmap_bit_find_clr
          (st.bitmap (ext4_balloc_get_bgid_of_block env.sb goal))
          (clampedGoalIdx env goal)
          (ext4_blocks_in_group_cnt env.sb
            (ext4_balloc_get_bgid_of_block env.sb goal)) = none :=
        find_clr_none.mpr fun t ht1 ht2 => hset t ht1 ht2
      rw [hn2]
      exact allocLoop_nospace env st hG hallfind _ _ _ _ _ _ (Nat.mod_lt _ hG)

/-- Witness for C5, following scenario S4 of the spec: with the single group
of the small filesystem full, `alloc` returns `ENOSPC`, the state is
unchanged and no bitmap was marked dirty. -/
theorem c5_witness :
    0 < ext4_block_group_cnt envSmall.sb ∧
    stFull.bgFree (ext4_balloc_get_bgid_of_block envSmall.sb 1) = 0 ∧
    (ext4_balloc_alloc_block envSmall okSched stFull 1).rc = ENOSPC ∧
    (ext4_balloc_alloc_block envSmall okSched stFull 1).st = stFull ∧
    (ext4_balloc_alloc_block envSmall okSched stFull 1).dirtyMarks = 0 := by
  have h := c5_no_space envSmall stFull 1 (by decide) (Or.inl (by decide))
    (fun g hg => Or.inl rfl)
  exact ⟨by decide, by decide, h.1, h.2.1, h.2.2.1⟩

/-! ### Range-free geometry and the free_blocks loop, characterized -/

theorem bgid_of_eq (s : Sblock) (a : ℕ) :
    ext4_balloc_get_bgid_of_block s a =
      (a - (if s.first_data_block ≠ 0 then 1 else 0)) / s.blocks_per_group := by
  unfold ext4_balloc_get_bgid_of_block
  by_cases h : s.first_data_block ≠ 0 ∧ a ≠ 0
  · rw [if_pos h, if_pos h.1]
  · rw [if_neg h]
    by_cases hf : s.first_data_block ≠ 0
    · have ha : a = 0 := by tauto
      subst ha
      rw [if_pos hf]
    · rw [if_neg hf, Nat.sub_zero]

theorem index_in_group_eq (s : Sblock) (a : ℕ) :
    ext4_fs_baddr2_index_in_group s a =
      (a - (if s.first_data_block ≠ 0 then 1 else 0)) % s.blocks_per_group := rfl

theorem bgid_of_mono (s : Sblock) {a b : ℕ} (h : a ≤ b) :
    ext4_balloc_get_bgid_of_block s a ≤ ext4_balloc_get_bgid_of_block s b := by
  rw [bgid_of_eq, bgid_of_eq]
  exact Nat.div_le_div_right (by omega)

theorem bgid_idx_add (s : Sblock) {a j : ℕ} (hb : 0 < s.blocks_per_group)
    (ha : (if s.first_data_block ≠ 0 then 1 else 0) ≤ a)
    (hj : ext4_fs_baddr2_index_in_group s a + j < s.blocks_per_group) :
    ext4_balloc_get_bgid_of_block s (a + j) = ext4_balloc_get_bgid_of_block s a ∧
    ext4_fs_baddr2_index_in_group s (a + j) =
      ext4_fs_baddr2_index_in_group s a + j := by
  rw [bgid_of_eq, bgid_of_eq, index_in_group_eq, index_in_group_eq] at *
  set off := (if s.first_data_block ≠ 0 then 1 else 0) with hoff
  have hx : a + j - off = (a - off) + j := by omega
  rw [hx]
  set x := a - off with hxdef
  have hdm := Nat.div_add_mod x s.blocks_per_group
  set q := x / s.blocks_per_group
  set r := x % s.blocks_per_group
  have hxe : x + j = s.blocks_per_group * q + (r + j) := by omega
  rw [hxe]
  constructor
  · rw [Nat.mul_add_div hb, Nat.div_eq_of_lt hj]
    omega
  · rw [Nat.mul_add_mod, Nat.mod_eq_of_lt hj]

theorem bgid_idx_next (s : Sblock) {a : ℕ} (hb : 0 < s.blocks_per_group)
    (ha : (if s.first_data_block ≠ 0 then 1 else 0) ≤ a) :
    ext4_balloc_get_bgid_of_block s
        (a + (s.blocks_per_group - ext4_fs_baddr2_index_in_group s a)) =
      ext4_balloc_get_bgid_of_block s a + 1 ∧
    ext4_fs_baddr2_index_in_group s
        (a + (s.blocks_per_group - ext4_fs_baddr2_index_in_group s a)) = 0 := by
  rw [bgid_of_eq, bgid_of_eq, index_in_group_eq, index_in_group_eq] at *
  set off := (if s.first_data_block ≠ 0 then 1 else 0) with hoff
  set x := a - off with hxdef
  have hdm := Nat.div_add_mod x s.blocks_per_group
  set q := x / s.blocks_per_group
  set r := x % s.blocks_per_group
  have hr : r < s.blocks_per_group := Nat.mod_lt _ hb
  have hmul : s.blocks_per_group * (q + 1) =
      s.blocks_per_group * q + s.blocks_per_group := by ring
  have hx : a + (s.blocks_per_group - r) - off =
      s.blocks_per_group * (q + 1) + 0 := by omega
  rw [hx]
  constructor
  · rw [Nat.mul_add_div hb, Nat.div_eq_of_lt hb]
  · rw [Nat.mul_add_mod, Nat.mod_eq_of_lt hb]

theorem bits_free_mono {bm : Bitmap} {i k t : ℕ} (h : bm t = false) :
    ext4_bmap_bits_free bm i k t = false := by
  unfold ext4_bmap_bits_free
  split
  · rfl
  · exact h

theorem freeBlocksLoop_zero (env : Env) :
    ∀ fuel bg bg_last first st idx gets puts dirty,
      st.sbFree < U64 → st.inoBlocks < U64 →
      (freeBlocksLoop env okSched fuel bg bg_last first 0 st idx gets puts
        dirty).rc = EOK ∧
      (freeBlocksLoop env okSched fuel bg bg_last first 0 st idx gets puts
        dirty).remaining = 0 ∧
      (freeBlocksLoop env okSched fuel bg bg_last first 0 st idx gets puts
        dirty).st.sbFree = st.sbFree ∧
      (freeBlocksLoop env okSched fuel bg bg_last first 0 st idx gets puts
        dirty).st.inoBlocks = st.inoBlocks ∧
      (∀ g t, (freeBlocksLoop env okSched fuel bg bg_last first 0 st idx gets
        puts dirty).st.bitmap g t = st.bitmap g t) ∧
      ∀ g, st.bgFree g < U32 →
        (freeBlocksLoop env okSched fuel bg bg_last first 0 st idx gets puts
          dirty).st.bgFree g = st.bgFree g := by
  intro fuel
  induction fuel with
  | zero =>
    intro bg bg_last first st idx gets puts dirty h1 h2
    exact ⟨rfl, rfl, rfl, rfl, fun _ _ => rfl, fun _ _ => rfl⟩
  | succ fuel ih =>
    intro bg bg_last first st idx gets puts dirty h1 h2
    unfold freeBlocksLoop
    simp only [okSched, EOK]
    norm_num
    set st' := applyFreeCounters env
      (rangeCommit env st bg (ext4_fs_baddr2_index_in_group env.sb first) 0)
      bg 0 with hst'
    have hsb' : st'.sbFree = st.sbFree := by
      rw [hst', rangeStep_sbFree, add64_eq_of_lt (by omega)]
      omega
    have hino' : st'.inoBlocks = st.inoBlocks := by
      rw [hst', rangeStep_inoBlocks]
      have : (0 : ℕ) * (env.sb.block_size / EXT4_INODE_BLOCK_SIZE) = 0 := by ring
      rw [this, sub64_eq_of_le (by omega) h2]
      omega
    have hbm' : ∀ g t, st'.bitmap g t = st.bitmap g t := by
      intro g t
      rw [hst', rangeStep_bitmap]
      unfold upd
      split
      · rename_i hgg
        subst hgg
        unfold ext4_bmap_bits_free
        rw [if_neg (by omega)]
      · rfl
    have hbgf : ∀ g, st.bgFree g < U32 → st'.bgFree g = st.bgFree g := by
      intro g hglt
      rw [hst', rangeStep_bgFree]
      unfold upd
      split
      · rename_i hgg
        subst hgg
        rw [add32_eq_of_lt (by omega)]
        omega
      · rfl
    have hres := ih (bg + 1) bg_last first st' (idx + 4) (gets + 1)
      (puts + 1) (dirty + 1) (by omega) (by omega)
    refine ⟨hres.1, hres.2.1, ?_, ?_, ?_, ?_⟩
    · rw [hres.2.2.1, hsb']
    · rw [hres.2.2.2.1, hino']
    · intro g t
      rw [hres.2.2.2.2.1 g t, hbm' g t]
    · intro g hglt
      rw [hres.2.2.2.2.2 g (by rw [hbgf g hglt]; exact hglt), hbgf g hglt]


theorem freeBlocksLoop_main (env : Env) :
    ∀ fuel count first (st : FsState) idx gets puts dirty bg bg_last,
      0 < env.sb.blocks_per_group →
      env.sb.blocks_per_group ≤ 8 * env.sb.block_size →
      (if env.sb.first_data_block ≠ 0 then 1 else 0) ≤ first →
      0 < count →
      (ext4_fs_baddr2_index_in_group env.sb first + count ≤
          env.sb.blocks_per_group ∨
        env.sb.blocks_per_group = 8 * env.sb.block_size) →
      st.sbFree + count < U64 →
      st.inoBlocks < U64 →
      count * (env.sb.block_size / EXT4_INODE_BLOCK_SIZE) ≤ st.inoBlocks →
      bg = ext4_balloc_get_bgid_of_block env.sb first →
      bg_last = ext4_balloc_get_bgid_of_block env.sb (first + count - 1) →
      fuel = bg_last + 1 - bg →
      (freeBlocksLoop env okSched fuel bg bg_last first count st idx gets puts
        dirty).rc = EOK ∧
      (freeBlocksLoop env okSched fuel bg bg_last first count st idx gets puts
        dirty).remaining = 0 ∧
      (freeBlocksLoop env okSched fuel bg bg_last first count st idx gets puts
        dirty).st.sbFree = st.sbFree + count ∧
      (freeBlocksLoop env okSched fuel bg bg_last first count st idx gets puts
        dirty).st.inoBlocks =
        st.inoBlocks - count * (env.sb.block_size / EXT4_INODE_BLOCK_SIZE) ∧
      (∀ j, j < count →
        (freeBlocksLoop env okSched fuel bg bg_last first count st idx gets
          puts dirty).st.bitmap (ext4_balloc_get_bgid_of_block env.sb (first + j))
          (ext4_fs_baddr2_index_in_group env.sb (first + j)) = false) ∧
      (∀ g t, st.bitmap g t = false →
        (freeBlocksLoop env okSched fuel bg bg_last first count st idx gets
          puts dirty).st.bitmap g t = false) := by
  intro fuel
  induction fuel with
  | zero =>
    intro count first st idx gets puts dirty bg bg_last hbpg h8 hoff hcnt halign
      hsb hino1 hino2 hbg hbglast hfuel
    have hmono : ext4_balloc_get_bgid_of_block env.sb first ≤
        ext4_balloc_get_bgid_of_block env.sb (first + count - 1) :=
      bgid_of_mono env.sb (by omega)
    omega
  | succ fuel ih =>
    intro count first st idx gets puts dirty bg bg_last hbpg h8 hoff hcnt halign
      hsb hino1 hino2 hbg hbglast hfuel
    have hmono : ext4_balloc_get_bgid_of_block env.sb first ≤
        ext4_balloc_get_bgid_of_block env.sb (first + count - 1) :=
      bgid_of_mono env.sb (by omega)
    have hilt : ext4_fs_baddr2_index_in_group env.sb first <
        env.sb.blocks_per_group := by
      rw [index_in_group_eq]; exact Nat.mod_lt _ hbpg
    unfold freeBlocksLoop
    simp only [okSched, EOK]
    norm_num
    by_cases hk : env.sb.block_size * 8 -
        ext4_fs_baddr2_index_in_group env.sb first < count
    · -- the chunk fills the bitmap to its end; needs the aligned geometry
      rw [if_pos hk]
      have halign8 : env.sb.blocks_per_group = 8 * env.sb.block_size := by
        rcases halign with h1 | h1
        · omega
        · exact h1
      set i := ext4_fs_baddr2_index_in_group env.sb first with hidef
      set k := env.sb.block_size * 8 - i with hkdef
      have hkbpg : k = env.sb.blocks_per_group - i := by omega
      set st' := applyFreeCounters env (rangeCommit env st bg i k) bg k
        with hst'
      have hsb' : st'.sbFree = st.sbFree + k := by
        rw [hst', rangeStep_sbFree, add64_eq_of_lt (by omega)]
      have hx : env.sb.block_size / EXT4_INODE_BLOCK_SIZE =
          env.sb.block_size / EXT4_INODE_BLOCK_SIZE := rfl
      have hdist : (count - k) * (env.sb.block_size / EXT4_INODE_BLOCK_SIZE) =
          count * (env.sb.block_size / EXT4_INODE_BLOCK_SIZE) -
          k * (env.sb.block_size / EXT4_INODE_BLOCK_SIZE) :=
        Nat.sub_mul count k _
      have hkle : k * (env.sb.block_size / EXT4_INODE_BLOCK_SIZE) ≤
          count * (env.sb.block_size / EXT4_INODE_BLOCK_SIZE) :=
        Nat.mul_le_mul_right _ (by omega)
      have hino' : st'.inoBlocks = st.inoBlocks -
          k * (env.sb.block_size / EXT4_INODE_BLOCK_SIZE) := by
        rw [hst', rangeStep_inoBlocks, sub64_eq_of_le (by omega) hino1]
      have hnext := bgid_idx_next env.sb hbpg hoff
      have hfirst' : ext4_balloc_get_bgid_of_block env.sb (first + k) =
          ext4_balloc_get_bgid_of_block env.sb first + 1 := by
        rw [hkbpg, hidef]; exact hnext.1
      have hidx' : ext4_fs_baddr2_index_in_group env.sb (first + k) = 0 := by
        rw [hkbpg, hidef]; exact hnext.2
      have haddr : first + k + (count - k) - 1 = first + count - 1 := by omega
      have hres := ih (count - k) (first + k) st' (idx + 4) (gets + 1)
        (puts + 1) (dirty + 1) (bg + 1) bg_last hbpg h8 (by omega) (by omega)
        (Or.inr halign8) (by omega) (by omega) (by omega)
        (by rw [hfirst', hbg]) (by rw [haddr, hbglast]) (by omega)
      refine ⟨hres.1, hres.2.1, ?_, ?_, ?_, ?_⟩
      · rw [hres.2.2.1, hsb']; omega
      · rw [hres.2.2.2.1, hino', hdist]; omega
      · intro j hj
        by_cases hjk : j < k
        · have hadd := bgid_idx_add env.sb hbpg hoff
            (show ext4_fs_baddr2_index_in_group env.sb first + j <
              env.sb.blocks_per_group by omega)
          rw [hadd.1, hadd.2]
          apply hres.2.2.2.2.2
          rw [hst', rangeStep_bitmap]
          unfold upd
          rw [hbg, if_pos rfl]
          unfold ext4_bmap_bits_free
          rw [if_pos (by constructor <;> omega)]
        · have haddr2 : first + k + (j - k) = first + j := by omega
          have := hres.2.2.2.2.1 (j - k) (by omega)
          rw [haddr2] at this
          exact this
      · intro g t ht
        apply hres.2.2.2.2.2
        rw [hst', rangeStep_bitmap]
        unfold upd
        split
        · rename_i hgg
          subst hgg
          exact bits_free_mono ht
        · exact ht
    · -- the whole remaining count fits in this group's bitmap
      rw [if_neg hk]
      set i := ext4_fs_baddr2_index_in_group env.sb first with hidef
      have hic : i + count ≤ env.sb.blocks_per_group := by
        rcases halign with h1 | h1
        · omega
        · omega
      set st' := applyFreeCounters env (rangeCommit env st bg i count) bg count
        with hst'
      have hsb' : st'.sbFree = st.sbFree + count := by
        rw [hst', rangeStep_sbFree, add64_eq_of_lt (by omega)]
      have hino' : st'.inoBlocks = st.inoBlocks -
          count * (env.sb.block_size / EXT4_INODE_BLOCK_SIZE) := by
        rw [hst', rangeStep_inoBlocks, sub64_eq_of_le (by omega) hino1]
      have hcc : count - count = 0 := by omega
      rw [hcc]
      have hzero := freeBlocksLoop_zero env fuel (bg + 1) bg_last
        (first + count) st' (idx + 4) (gets + 1) (puts + 1) (dirty + 1)
        (by omega) (by omega)
      refine ⟨hzero.1, hzero.2.1, ?_, ?_, ?_, ?_⟩
      · rw [hzero.2.2.1, hsb']
      · rw [hzero.2.2.2.1, hino']
      · intro j hj
        have hadd := bgid_idx_add env.sb hbpg hoff
          (show ext4_fs_baddr2_index_in_group env.sb first + j <
            env.sb.blocks_per_group by omega)
        rw [hadd.1, hadd.2]
        rw [hzero.2.2.2.2.1]
        rw [hst', rangeStep_bitmap]
        unfold upd
        rw [hbg, if_pos rfl]
        unfold ext4_bmap_bits_free
        rw [if_pos (by constructor <;> omega)]
      · intro g t ht
        rw [hzero.2.2.2.2.1]
        rw [hst', rangeStep_bitmap]
        unfold upd
        split
        · rename_i hgg
          subst hgg
          exact bits_free_mono ht
        · exact ht

/-- A range that starts and ends in the same block group lies within the
valid index range of that group. -/
theorem single_group_fits (s : Sblock) {first count : ℕ}
    (hbpg : 0 < s.blocks_per_group)
    (hoff : (if s.first_data_block ≠ 0 then 1 else 0) ≤ first)
    (hcnt : 0 < count)
    (hgg : ext4_balloc_get_bgid_of_block s first =
      ext4_balloc_get_bgid_of_block s (first + count - 1)) :
    ext4_fs_baddr2_index_in_group s first + count ≤ s.blocks_per_group := by
  rw [bgid_of_eq, bgid_of_eq] at hgg
  rw [index_in_group_eq]
  set off := (if s.first_data_block ≠ 0 then 1 else 0) with hoffdef
  set x := first - off with hxdef
  have hlast : first + count - 1 - off = x + (count - 1) := by omega
  rw [hlast] at hgg
  have hdm := Nat.div_add_mod x s.blocks_per_group
  set q := x / s.blocks_per_group
  set r := x % s.blocks_per_group
  have hr : r < s.blocks_per_group := Nat.mod_lt _ hbpg
  by_contra hlt
  have h1 : s.blocks_per_group * (q + 1) ≤ x + (count - 1) := by
    have hmul : s.blocks_per_group * (q + 1) =
        s.blocks_per_group * q + s.blocks_per_group := by ring
    omega
  have h2 : q + 1 ≤ (x + (count - 1)) / s.blocks_per_group :=
    (Nat.le_div_iff_mul_le hbpg).mpr (by
      have hcomm : (q + 1) * s.blocks_per_group =
          s.blocks_per_group * (q + 1) := by ring
      omega)
  omega

/-! ### Claim C6: free_range semantics -/

/-- Claim C6, as frozen, is false on the code: with `INCOMPAT_FLEX_BG`
supported but `blocks_per_group` (8) smaller than the bitmap capacity
`8 * block_size` (16 bits), `free_range(first = 6, count = 4)` crosses from
group 0 into group 1, yet the first iteration clears bits 6..9 of group 0's
bitmap (its padding) and exhausts the count, so the block at address
`6 + 2 = 8` — in-range — still has its bit set in group 1 after the call
returns success with remaining count 0. -/
theorem c6_counterexample :
    envFlex.sb.feature_flex_bg = true ∧
    ext4_balloc_get_bgid_of_block envFlex.sb 6 ≠
      ext4_balloc_get_bgid_of_block envFlex.sb (6 + 4 - 1) ∧
    (ext4_balloc_free_blocks envFlex okSched stFlexFull 6 4).rc = EOK ∧
    (ext4_balloc_free_blocks envFlex okSched stFlexFull 6 4).remaining = 0 ∧
    (2 : ℕ) < 4 ∧
    (ext4_balloc_free_blocks envFlex okSched stFlexFull 6 4).st.bitmap
      (ext4_balloc_get_bgid_of_block envFlex.sb (6 + 2))
      (ext4_fs_baddr2_index_in_group envFlex.sb (6 + 2)) = true := by
  decide

/-- Claim C6, amended: under the precondition that the range stays in one
group (`bgid_of(first) = bgid_of(first+count-1)`) or `INCOMPAT_FLEX_BG` is
supported with the standard geometry `blocks_per_group = 8 * block_size` (one
bitmap block per group exactly), `free_range(first, count)` iterates per
group, clearing in each `k = min(remaining, 8*block_size - index_in_group)`
bits from the current index and adjusting superblock (+k), group (+k) and
inode (−k·(block_size/512)) counters — the first conjunct below is the loop's
one-iteration unrolling — and on the successful return every one of the
`count` bits starting at `first` is clear, the remaining count is 0 and the
totals moved by `count`. -/
theorem c6_free_range (env : Env) (st : FsState) (first count : ℕ)
    (hbpg : 0 < env.sb.blocks_per_group)
    (h8 : env.sb.blocks_per_group ≤ 8 * env.sb.block_size)
    (hoff : (if env.sb.first_data_block ≠ 0 then 1 else 0) ≤ first)
    (hcnt : 0 < count)
    (hpre : (env.sb.feature_flex_bg = true ∧
        env.sb.blocks_per_group = 8 * env.sb.block_size) ∨
      ext4_balloc_get_bgid_of_block env.sb first =
        ext4_balloc_get_bgid_of_block env.sb (first + count - 1))
    (hsb : st.sbFree + count < U64)
    (hino1 : st.inoBlocks < U64)
    (hino2 : count * (env.sb.block_size / EXT4_INODE_BLOCK_SIZE) ≤
      st.inoBlocks) :
    (∀ fuel bg bg_last f c (s1 : FsState) idx gets puts dirty,
      freeBlocksLoop env okSched (fuel + 1) bg bg_last f c s1 idx gets puts
        dirty =
      freeBlocksLoop env okSched fuel (bg + 1) bg_last
        (f + min c (env.sb.block_size * 8 -
          ext4_fs_baddr2_index_in_group env.sb f))
        (c - min c (env.sb.block_size * 8 -
          ext4_fs_baddr2_index_in_group env.sb f))
        (applyFreeCounters env
          (rangeCommit env s1 bg (ext4_fs_baddr2_index_in_group env.sb f)
            (min c (env.sb.block_size * 8 -
              ext4_fs_baddr2_index_in_group env.sb f)))
          bg
          (min c (env.sb.block_size * 8 -
            ext4_fs_baddr2_index_in_group env.sb f)))
        (idx + 4) (gets + 1) (puts + 1) (dirty + 1)) ∧
    (ext4_balloc_free_blocks env okSched st first count).rc = EOK ∧
    (ext4_balloc_free_blocks env okSched st first count).remaining = 0 ∧
    (ext4_balloc_free_blocks env okSched st first count).st.sbFree =
      st.sbFree + count ∧
    (ext4_balloc_free_blocks env okSched st first count).st.inoBlocks =
      st.inoBlocks - count * (env.sb.block_size / EXT4_INODE_BLOCK_SIZE) ∧
    (∀ j, j < count →
      (ext4_balloc_free_blocks env okSched st first count).st.bitmap
        (ext4_balloc_get_bgid_of_block env.sb (first + j))
        (ext4_fs_baddr2_index_in_group env.sb (first + j)) = false) := by
  have halign : ext4_fs_baddr2_index_in_group env.sb first + count ≤
      env.sb.blocks_per_group ∨
      env.sb.blocks_per_group = 8 * env.sb.block_size := by
    rcases hpre with ⟨_, h⟩ | hgg
    · exact Or.inr h
    · exact Or.inl (single_group_fits env.sb hbpg hoff hcnt hgg)
  have hmain := freeBlocksLoop_main env
    (ext4_balloc_get_bgid_of_block env.sb (first + count - 1) + 1 -
      ext4_balloc_get_bgid_of_block env.sb first)
    count first st 0 0 0 0
    (ext4_balloc_get_bgid_of_block env.sb first)
    (ext4_balloc_get_bgid_of_block env.sb (first + count - 1))
    hbpg h8 hoff hcnt halign hsb hino1 hino2 rfl rfl rfl
  refine ⟨?_, hmain.1, hmain.2.1, hmain.2.2.1, hmain.2.2.2.1,
    hmain.2.2.2.2.1⟩
  intro fuel bg bg_last f c s1 idx gets puts dirty
  unfold freeBlocksLoop
  simp only [okSched, EOK]
  norm_num
  have hmin : (if env.sb.block_size * 8 -
      ext4_fs_baddr2_index_in_group env.sb f < c then
      env.sb.block_size * 8 - ext4_fs_baddr2_index_in_group env.sb f
    else c) = min c (env.sb.block_size * 8 -
      ext4_fs_baddr2_index_in_group env.sb f) := by
    rw [Nat.min_def]
    split
    · split <;> omega
    · split <;> omega
  rw [hmin]
  cases fuel <;> rfl

/-- Witness for the amended C6: freeing the whole 8-block group of the small
filesystem from its full state clears every bit and moves the totals by 8. -/
theorem c6_witness :
    (ext4_balloc_free_blocks envSmall okSched stFull 1 8).rc = EOK ∧
    (ext4_balloc_free_blocks envSmall okSched stFull 1 8).remaining = 0 ∧
    (ext4_balloc_free_blocks envSmall okSched stFull 1 8).st.sbFree =
      stFull.sbFree + 8 ∧
    (ext4_balloc_free_blocks envSmall okSched stFull 1 8).st.inoBlocks =
      stFull.inoBlocks -
        8 * (envSmall.sb.block_size / EXT4_INODE_BLOCK_SIZE) ∧
    (ext4_balloc_free_blocks envSmall okSched stFull 1 8).st.bitmap
      (ext4_balloc_get_bgid_of_block envSmall.sb (1 + 3))
      (ext4_fs_baddr2_index_in_group envSmall.sb (1 + 3)) = false := by
  have h := c6_free_range envSmall stFull 1 8 (by decide) (by decide)
    (by decide) (by decide) (Or.inr (by decide)) (by decide) (by decide)
    (by decide)
  exact ⟨h.2.1, h.2.2.1, h.2.2.2.1, h.2.2.2.2.1, h.2.2.2.2.2 3 (by decide)⟩

/-! ### Consistency preservation of the operations -/

theorem consistent_of_pointwise {env : Env} {s1 s2 : FsState}
    (hc : Consistent env s1)
    (hsb : s2.sbFree = s1.sbFree)
    (hbg : ∀ g, g < ext4_block_group_cnt env.sb → s2.bgFree g = s1.bgFree g)
    (hbm : ∀ g t, s2.bitmap g t = s1.bitmap g t) :
    Consistent env s2 := by
  obtain ⟨hgeom, hcount, hsum, hpad⟩ := hc
  refine ⟨hgeom, ?_, ?_, ?_⟩
  · intro g hg
    rw [hbg g hg, hcount g hg]
    exact clearCount_congr fun t _ => (hbm g t).symm
  · rw [hsb, hsum]
    exact Finset.sum_congr rfl fun g hg => (hbg g (Finset.mem_range.mp hg)).symm
  · intro g hg t ht
    rw [hbm g t]
    exact hpad g hg t ht

theorem freeBlocksLoop_consistent (env : Env) :
    ∀ fuel count first (st : FsState) idx gets puts dirty bg bg_last,
      Consistent env st →
      (if env.sb.first_data_block ≠ 0 then 1 else 0) ≤ first →
      0 < count →
      (ext4_fs_baddr2_index_in_group env.sb first + count ≤
          env.sb.blocks_per_group ∨
        env.sb.blocks_per_group = 8 * env.sb.block_size) →
      (∀ j, j < count →
        ext4_balloc_get_bgid_of_block env.sb (first + j) <
          ext4_block_group_cnt env.sb ∧
        ext4_fs_baddr2_index_in_group env.sb (first + j) <
          ext4_blocks_in_group_cnt env.sb
            (ext4_balloc_get_bgid_of_block env.sb (first + j)) ∧
        st.bitmap (ext4_balloc_get_bgid_of_block env.sb (first + j))
          (ext4_fs_baddr2_index_in_group env.sb (first + j)) = true) →
      bg = ext4_balloc_get_bgid_of_block env.sb first →
      bg_last = ext4_balloc_get_bgid_of_block env.sb (first + count - 1) →
      fuel = bg_last + 1 - bg →
      Consistent env (freeBlocksLoop env okSched fuel bg bg_last first count st
        idx gets puts dirty).st := by
  intro fuel
  induction fuel with
  | zero =>
    intro count first st idx gets puts dirty bg bg_last hc hoff hcnt halign
      hvalid hbg hbglast hfuel
    have hmono : ext4_balloc_get_bgid_of_block env.sb first ≤
        ext4_balloc_get_bgid_of_block env.sb (first + count - 1) :=
      bgid_of_mono env.sb (by omega)
    omega
  | succ fuel ih =>
    intro count first st idx gets puts dirty bg bg_last hc hoff hcnt halign
      hvalid hbg hbglast hfuel
    have hbpg : 0 < env.sb.blocks_per_group := hc.1.1
    have h8 : env.sb.blocks_per_group ≤ 8 * env.sb.block_size := hc.1.2.2.2.2.1
    have hmono : ext4_balloc_get_bgid_of_block env.sb first ≤
        ext4_balloc_get_bgid_of_block env.sb (first + count - 1) :=
      bgid_of_mono env.sb (by omega)
    have hilt : ext4_fs_baddr2_index_in_group env.sb first <
        env.sb.blocks_per_group := by
      rw [index_in_group_eq]; exact Nat.mod_lt _ hbpg
    have hv0 := hvalid 0 hcnt
    rw [Nat.add_zero] at hv0
    have hbgG : bg < ext4_block_group_cnt env.sb := by rw [hbg]; exact hv0.1
    unfold freeBlocksLoop
    simp only [okSched, EOK]
    norm_num
    by_cases hk : env.sb.block_size * 8 -
        ext4_fs_baddr2_index_in_group env.sb first < count
    · rw [if_pos hk]
      have halign8 : env.sb.blocks_per_group = 8 * env.sb.block_size := by
        rcases halign with h1 | h1
        · omega
        · exact h1
      set i := ext4_fs_baddr2_index_in_group env.sb first with hidef
      set k := env.sb.block_size * 8 - i with hkdef
      have hkbpg : k = env.sb.blocks_per_group - i := by omega
      have hkpos : 0 < k := by omega
      -- the chunk addresses decompose into (bg, i), (bg, i+1), ..., (bg, i+k-1)
      have hchunk : ∀ j, j < k →
          ext4_balloc_get_bgid_of_block env.sb (first + j) = bg ∧
          ext4_fs_baddr2_index_in_group env.sb (first + j) = i + j := by
        intro j hj
        have hadd := bgid_idx_add env.sb hbpg hoff
          (show ext4_fs_baddr2_index_in_group env.sb first + j <
            env.sb.blocks_per_group by omega)
        exact ⟨by rw [hadd.1, hbg], by rw [hadd.2, hidef]⟩
      have hik : i + k ≤ ext4_blocks_in_group_cnt env.sb bg := by
        have hvk := hvalid (k - 1) (by omega)
        have hck := hchunk (k - 1) (by omega)
        rw [hck.1, hck.2] at hvk
        omega
      have hsetall : ∀ t, i ≤ t → t < i + k → st.bitmap bg t = true := by
        intro t ht1 ht2
        have hvj := hvalid (t - i) (by omega)
        have hcj := hchunk (t - i) (by omega)
        rw [hcj.1, hcj.2] at hvj
        have : i + (t - i) = t := by omega
        rw [this] at hvj
        exact hvj.2.2
      have hcons' := consistent_range hc hbgG hik hsetall
      set st' := applyFreeCounters env (rangeCommit env st bg i k) bg k
        with hst'
      have hother : ∀ g, g ≠ bg → st'.bitmap g = st.bitmap g := by
        intro g hg
        rw [hst', rangeStep_bitmap]
        unfold upd
        rw [if_neg hg]
      have hnext := bgid_idx_next env.sb hbpg hoff
      have hfirst' : ext4_balloc_get_bgid_of_block env.sb (first + k) =
          ext4_balloc_get_bgid_of_block env.sb first + 1 := by
        rw [hkbpg, hidef]; exact hnext.1
      have hidx' : ext4_fs_baddr2_index_in_group env.sb (first + k) = 0 := by
        rw [hkbpg, hidef]; exact hnext.2
      have haddr : first + k + (count - k) - 1 = first + count - 1 := by omega
      have hvalid' : ∀ j, j < count - k →
          ext4_balloc_get_bgid_of_block env.sb (first + k + j) <
            ext4_block_group_cnt env.sb ∧
          ext4_fs_baddr2_index_in_group env.sb (first + k + j) <
            ext4_blocks_in_group_cnt env.sb
              (ext4_balloc_get_bgid_of_block env.sb (first + k + j)) ∧
          st'.bitmap (ext4_balloc_get_bgid_of_block env.sb (first + k + j))
            (ext4_fs_baddr2_index_in_group env.sb (first + k + j)) = true := by
        intro j hj
        have haj : first + k + j = first + (k + j) := by omega
        have hvj := hvalid (k + j) (by omega)
        have hgj : ext4_balloc_get_bgid_of_block env.sb (first + (k + j)) ≠
            bg := by
          have h1 : ext4_balloc_get_bgid_of_block env.sb (first + k) ≤
              ext4_balloc_get_bgid_of_block env.sb (first + (k + j)) :=
            bgid_of_mono env.sb (by omega)
          rw [hfirst'] at h1
          rw [hbg]
          omega
        rw [haj]
        refine ⟨hvj.1, hvj.2.1, ?_⟩
        rw [hother _ hgj]
        exact hvj.2.2
      exact ih (count - k) (first + k) st' (idx + 4) (gets + 1) (puts + 1)
        (dirty + 1) (bg + 1) bg_last hcons' (by omega) (by omega)
        (Or.inr halign8) hvalid' (by rw [hfirst', hbg]) (by rw [haddr, hbglast])
        (by omega)
    · rw [if_neg hk]
      set i := ext4_fs_baddr2_index_in_group env.sb first with hidef
      have hic : i + count ≤ env.sb.blocks_per_group := by
        rcases halign with h1 | h1
        · omega
        · omega
      have hchunk : ∀ j, j < count →
          ext4_balloc_get_bgid_of_block env.sb (first + j) = bg ∧
          ext4_fs_baddr2_index_in_group env.sb (first + j) = i + j := by
        intro j hj
        have hadd := bgid_idx_add env.sb hbpg hoff
          (show ext4_fs_baddr2_index_in_group env.sb first + j <
            env.sb.blocks_per_group by omega)
        exact ⟨by rw [hadd.1, hbg], by rw [hadd.2, hidef]⟩
      have hik : i + count ≤ ext4_blocks_in_group_cnt env.sb bg := by
        have hvk := hvalid (count - 1) (by omega)
        have hck := hchunk (count - 1) (by omega)
        rw [hck.1, hck.2] at hvk
        omega
      have hsetall : ∀ t, i ≤ t → t < i + count → st.bitmap bg t = true := by
        intro t ht1 ht2
        have hvj := hvalid (t - i) (by omega)
        have hcj := hchunk (t - i) (by omega)
        rw [hcj.1, hcj.2] at hvj
        have : i + (t - i) = t := by omega
        rw [this] at hvj
        exact hvj.2.2
      have hcons' := consistent_range hc hbgG hik hsetall
      set st' := applyFreeCounters env (rangeCommit env st bg i count) bg count
        with hst'
      have hcc : count - count = 0 := by omega
      rw [hcc]
      have hzero := freeBlocksLoop_zero env fuel (bg + 1) bg_last
        (first + count) st' (idx + 4) (gets + 1) (puts + 1) (dirty + 1)
        (by rw [hst']; exact sbFree_lt_U64 hcons')
        (by
          rw [hst', rangeStep_inoBlocks]
          unfold sub64 wrap64 U64
          omega)
      refine consistent_of_pointwise hcons' hzero.2.2.1 ?_ hzero.2.2.2.2.1
      intro g hg
      apply hzero.2.2.2.2.2
      exact lt_of_le_of_lt (bgFree_le_bpg hcons' g hg) hcons'.1.2.1

theorem allocLoop_consistent (env : Env) (st : FsState)
    (hc : Consistent env st) :
    ∀ count bgid idx gets puts dirty, bgid < ext4_block_group_cnt env.sb →
      Consistent env
        (allocLoop env okSched bgid count st idx gets puts dirty).st := by
  intro count
  induction count with
  | zero =>
    intro bgid idx gets puts dirty hbg
    exact hc
  | succ count ih =>
    intro bgid idx gets puts dirty hbg
    have hG : 0 < ext4_block_group_cnt env.sb := hc.1.2.2.1
    have hmod : (bgid + 1) % ext4_block_group_cnt env.sb <
        ext4_block_group_cnt env.sb := Nat.mod_lt _ hG
    unfold allocLoop
    simp only [okSched, EOK]
    norm_num
    by_cases hfree : st.bgFree bgid = 0
    · rw [if_pos hfree]
      exact ih _ _ _ _ _ hmod
    · rw [if_neg hfree]
      cases hfind : ext4_bmap_bit_find_clr (st.bitmap bgid)
          (ext4_fs_baddr2_index_in_group env.sb
            (ext4_balloc_get_block_of_bgid env.sb bgid))
          (ext4_blocks_in_group_cnt env.sb bgid) with
      | none =>
        exact ih _ _ _ _ _ hmod
      | some j =>
        have hspec := find_clr_some.mp hfind
        exact consistent_claim hc hbg hspec.2.1 hspec.2.2.1

theorem alloc_preserves (env : Env) (st : FsState) (goal : ℕ)
    (hc : Consistent env st)
    (hgoal : ext4_balloc_get_bgid_of_block env.sb goal <
      ext4_block_group_cnt env.sb) :
    Consistent env (ext4_balloc_alloc_block env okSched st goal).st := by
  have hG : 0 < ext4_block_group_cnt env.sb := hc.1.2.2.1
  have hmod : ∀ x : ℕ, x % ext4_block_group_cnt env.sb <
      ext4_block_group_cnt env.sb := fun x => Nat.mod_lt _ hG
  unfold ext4_balloc_alloc_block
  simp only [okSched, EOK]
  norm_num
  by_cases hfree : st.bgFree (ext4_balloc_get_bgid_of_block env.sb goal) = 0
  · rw [if_pos hfree]
    exact allocLoop_consistent env st hc _ _ _ _ _ _ (hmod _)
  · rw [if_neg hfree]
    rw [show (if ext4_fs_baddr2_index_in_group env.sb goal <
        ext4_fs_baddr2_index_in_group env.sb
          (ext4_balloc_get_block_of_bgid env.sb
            (ext4_balloc_get_bgid_of_block env.sb goal)) then
        ext4_fs_baddr2_index_in_group env.sb
          (ext4_balloc_get_block_of_bgid env.sb
            (ext4_balloc_get_bgid_of_block env.sb goal))
      else ext4_fs_baddr2_index_in_group env.sb goal) =
        clampedGoalIdx env goal from rfl]
    by_cases hbit : st.bitmap (ext4_balloc_get_bgid_of_block env.sb goal)
        (clampedGoalIdx env goal) = false
    · rw [show ext4_bmap_is_bit_clr
          (st.bitmap (ext4_balloc_get_bgid_of_block env.sb goal))
          (clampedGoalIdx env goal) = true by
        unfold ext4_bmap_is_bit_clr; rw [hbit]; rfl]
      have hlt : clampedGoalIdx env goal < ext4_blocks_in_group_cnt env.sb
          (ext4_balloc_get_bgid_of_block env.sb goal) := by
        by_contra hge
        have := hc.2.2.2 (ext4_balloc_get_bgid_of_block env.sb goal) hgoal
          (clampedGoalIdx env goal) (by omega)
        rw [this] at hbit
        cases hbit
      exact consistent_claim hc hgoal hlt hbit
    · have hbit' : st.bitmap (ext4_balloc_get_bgid_of_block env.sb goal)
          (clampedGoalIdx env goal) = true := by
        cases h : st.bitmap (ext4_balloc_get_bgid_of_block env.sb goal)
            (clampedGoalIdx env goal)
        · exact absurd h hbit
        · rfl
      rw [show ext4_bmap_is_bit_clr
          (st.bitmap (ext4_balloc_get_bgid_of_block env.sb goal))
          (clampedGoalIdx env goal) = false by
        unfold ext4_bmap_is_bit_clr; rw [hbit']; rfl]
      cases hfind : ext4_bmap_bit_find_clr
          (st.bitmap (ext4_balloc_get_bgid_of_block env.sb goal))
          (clampedGoalIdx env goal + 1)
          (if ext4_blocks_in_group_cnt env.sb
              (ext4_balloc_get_bgid_of_block env.sb goal) <
              (clampedGoalIdx env goal + 63) / 64 * 64 then
            ext4_blocks_in_group_cnt env.sb
              (ext4_balloc_get_bgid_of_block env.sb goal)
          else (clampedGoalIdx env goal + 63) / 64 * 64) with
      | some j =>
        have hspec := find_clr_some.mp hfind
        have hjlt : j < ext4_blocks_in_group_cnt env.sb
            (ext4_balloc_get_bgid_of_block env.sb goal) := by
          have := hspec.2.1
          revert this
          split <;> omega
        exact consistent_claim hc hgoal hjlt hspec.2.2.1
      | none =>
        cases hfind2 : ext4_bmap_bit_find_clr
            (st.bitmap (ext4_balloc_get_bgid_of_block env.sb goal))
            (clampedGoalIdx env goal)
            (ext4_blocks_in_group_cnt env.sb
              (ext4_balloc_get_bgid_of_block env.sb goal)) with
        | some j =>
          have hspec := find_clr_some.mp hfind2
          exact consistent_claim hc hgoal hspec.2.1 hspec.2.2.1
        | none =>
          exact allocLoop_consistent env st hc _ _ _ _ _ _ (hmod _)

theorem freeOne_preserves (env : Env) (st : FsState) (baddr : ℕ)
    (hc : Consistent env st)
    (hg : ext4_balloc_get_bgid_of_block env.sb baddr <
      ext4_block_group_cnt env.sb)
    (hi : ext4_fs_baddr2_index_in_group env.sb baddr <
      ext4_blocks_in_group_cnt env.sb
        (ext4_balloc_get_bgid_of_block env.sb baddr))
    (hset : st.bitmap (ext4_balloc_get_bgid_of_block env.sb baddr)
      (ext4_fs_baddr2_index_in_group env.sb baddr) = true) :
    Consistent env (ext4_balloc_free_block env okSched st baddr).st := by
  have hst : (ext4_balloc_free_block env okSched st baddr).st =
      applyFreeCounters env
        (freeOneCommit env st (ext4_balloc_get_bgid_of_block env.sb baddr)
          (ext4_fs_baddr2_index_in_group env.sb baddr))
        (ext4_balloc_get_bgid_of_block env.sb baddr) 1 := by
    unfold ext4_balloc_free_block
    simp only [okSched, EOK]
    norm_num
  rw [hst]
  exact consistent_free_one hc hg hi hset

theorem tryOne_preserves (env : Env) (st : FsState) (baddr : ℕ)
    (hc : Consistent env st)
    (hg : ext4_balloc_get_bgid_of_block env.sb baddr <
      ext4_block_group_cnt env.sb) :
    Consistent env (ext4_balloc_try_alloc_block env okSched st baddr).st := by
  unfold ext4_balloc_try_alloc_block
  simp only [okSched, EOK]
  norm_num
  by_cases hbit : st.bitmap (ext4_balloc_get_bgid_of_block env.sb baddr)
      (ext4_fs_baddr2_index_in_group env.sb baddr)
  · rw [show ext4_bmap_is_bit_clr
        (st.bitmap (ext4_balloc_get_bgid_of_block env.sb baddr))
        (ext4_fs_baddr2_index_in_group env.sb baddr) = false by
      unfold ext4_bmap_is_bit_clr; rw [hbit]; rfl]
    exact hc
  · have hbit' : st.bitmap (ext4_balloc_get_bgid_of_block env.sb baddr)
        (ext4_fs_baddr2_index_in_group env.sb baddr) = false := by
      cases h : st.bitmap (ext4_balloc_get_bgid_of_block env.sb baddr)
          (ext4_fs_baddr2_index_in_group env.sb baddr)
      · rfl
      · exact absurd h hbit
    rw [show ext4_bmap_is_bit_clr
        (st.bitmap (ext4_balloc_get_bgid_of_block env.sb baddr))
        (ext4_fs_baddr2_index_in_group env.sb baddr) = true by
      unfold ext4_bmap_is_bit_clr; rw [hbit']; rfl]
    have hlt : ext4_fs_baddr2_index_in_group env.sb baddr <
        ext4_blocks_in_group_cnt env.sb
          (ext4_balloc_get_bgid_of_block env.sb baddr) := by
      by_contra hge
      have := hc.2.2.2 (ext4_balloc_get_bgid_of_block env.sb baddr) hg
        (ext4_fs_baddr2_index_in_group env.sb baddr) (by omega)
      rw [this] at hbit'
      cases hbit'
    exact consistent_claim hc hg hlt hbit'

theorem freeRange_preserves (env : Env) (st : FsState) (first count : ℕ)
    (hc : Consistent env st)
    (hoff : (if env.sb.first_data_block ≠ 0 then 1 else 0) ≤ first)
    (hcnt : 0 < count)
    (halign : ext4_fs_baddr2_index_in_group env.sb first + count ≤
        env.sb.blocks_per_group ∨
      env.sb.blocks_per_group = 8 * env.sb.block_size)
    (hvalid : ∀ j, j < count →
      ext4_balloc_get_bgid_of_block env.sb (first + j) <
        ext4_block_group_cnt env.sb ∧
      ext4_fs_baddr2_index_in_group env.sb (first + j) <
        ext4_blocks_in_group_cnt env.sb
          (ext4_balloc_get_bgid_of_block env.sb (first + j)) ∧
      st.bitmap (ext4_balloc_get_bgid_of_block env.sb (first + j))
        (ext4_fs_baddr2_index_in_group env.sb (first + j)) = true) :
    Consistent env (ext4_balloc_free_blocks env okSched st first count).st :=
  freeBlocksLoop_consistent env
    (ext4_balloc_get_bgid_of_block env.sb (first + count - 1) + 1 -
      ext4_balloc_get_bgid_of_block env.sb first)
    count first st 0 0 0 0
    (ext4_balloc_get_bgid_of_block env.sb first)
    (ext4_balloc_get_bgid_of_block env.sb (first + count - 1))
    hc hoff hcnt halign hvalid rfl rfl rfl

theorem runCall_preserves (env : Env) (st : FsState) (c : Call)
    (hc : Consistent env st) (hv : ValidCall env st c) :
    Consistent env (runCall env c st).st := by
  cases c with
  | alloc goal => exact alloc_preserves env st goal hc hv
  | freeOne baddr => exact freeOne_preserves env st baddr hc hv.1 hv.2.1 hv.2.2
  | freeRange first count =>
    exact freeRange_preserves env st first count hc hv.1 hv.2.1 hv.2.2.1
      hv.2.2.2
  | tryOne baddr => exact tryOne_preserves env st baddr hc hv



/-! ### C1: counter coherence across call sequences -/

theorem consistent_stEmpty : Consistent envSmall stEmpty := by
  refine ⟨by unfold GeomOK; decide, by decide, by decide, ?_⟩
  intro g hg i hi
  have h1 : ext4_block_group_cnt envSmall.sb = 1 := by decide
  have hg0 : g = 0 := by omega
  subst hg0
  have h8 : ext4_blocks_in_group_cnt envSmall.sb 0 = 8 := by decide
  rw [h8] at hi
  simp only [stEmpty, decide_eq_true_eq]
  omega

/-- C1 (amended): counter coherence holds in every state reachable from a
consistent state by a sequence of calls each of which is *valid* where it
runs (`ValidCall`: touched addresses map to existing groups, freed blocks lie
in the valid prefix with their bit currently set, freed ranges are nonempty
and single-group or on standard geometry).  The unamended claim, quantifying
over all *successful* call sequences, is refuted by `c1_counterexample`:
`free_one` on an already-clear bit succeeds yet breaks coherence. -/
theorem c1_counter_coherence (env : Env) (st : FsState) (calls : List Call)
    (hgood : GoodSeq env (ValidCall env) st calls) :
    Consistent env st → Consistent env (runSeq env calls st) := by
  induction hgood with
  | nil st => exact id
  | cons st c cs hv _ ih =>
    intro hc
    exact ih (runCall_preserves env st c hc hv)

theorem c1_witness :
    Consistent envSmall (runSeq envSmall [Call.tryOne 5] stEmpty) :=
  c1_counter_coherence envSmall stEmpty [Call.tryOne 5]
    (GoodSeq.cons _ _ _
      (show ext4_balloc_get_bgid_of_block envSmall.sb 5 <
        ext4_block_group_cnt envSmall.sb by decide)
      (GoodSeq.nil _)) consistent_stEmpty

/-- The original C1 is false as stated: from the consistent fresh state,
`free_one` of block 1 (whose bit is already clear) returns success, but the
resulting state violates counter coherence (the group free count becomes 9
while only 8 bits of the valid prefix are clear). -/
theorem c1_counterexample :
    Consistent envSmall stEmpty ∧
    (ext4_balloc_free_block envSmall okSched stEmpty 1).rc = EOK ∧
    ¬ Consistent envSmall (ext4_balloc_free_block envSmall okSched stEmpty 1).st := by
  refine ⟨consistent_stEmpty, by decide, ?_⟩
  intro hcon
  exact absurd (hcon.2.1 0 (by decide)) (by decide)


/-! ### C8: inode block accounting -/

theorem allocLoop_ino (env : Env) (st : FsState) :
    ∀ count bgid idx gets puts dirty,
      ((allocLoop env okSched bgid count st idx gets puts dirty).fblock.isSome =
          true ∧
        (allocLoop env okSched bgid count st idx gets puts dirty).st.inoBlocks =
          add64 st.inoBlocks (env.sb.block_size / EXT4_INODE_BLOCK_SIZE)) ∨
      ((allocLoop env okSched bgid count st idx gets puts dirty).fblock =
          none ∧
        (allocLoop env okSched bgid count st idx gets puts dirty).st.inoBlocks =
          st.inoBlocks) := by
  intro count
  induction count with
  | zero =>
    intro bgid idx gets puts dirty
    right
    exact ⟨rfl, rfl⟩
  | succ count ih =>
    intro bgid idx gets puts dirty
    unfold allocLoop
    simp only [okSched, EOK]
    norm_num
    by_cases hfree : st.bgFree bgid = 0
    · rw [if_pos hfree]
      exact ih _ _ _ _ _
    · rw [if_neg hfree]
      cases hfind : ext4_bmap_bit_find_clr (st.bitmap bgid)
          (ext4_fs_baddr2_index_in_group env.sb
            (ext4_balloc_get_block_of_bgid env.sb bgid))
          (ext4_blocks_in_group_cnt env.sb bgid) with
      | none => exact ih _ _ _ _ _
      | some j =>
        left
        refine ⟨rfl, ?_⟩
        simp [allocSuccess, applyAllocCounters]

theorem alloc_ino (env : Env) (st : FsState) (goal : ℕ) :
    ((ext4_balloc_alloc_block env okSched st goal).fblock.isSome = true ∧
      (ext4_balloc_alloc_block env okSched st goal).st.inoBlocks =
        add64 st.inoBlocks (env.sb.block_size / EXT4_INODE_BLOCK_SIZE)) ∨
    ((ext4_balloc_alloc_block env okSched st goal).fblock = none ∧
      (ext4_balloc_alloc_block env okSched st goal).st.inoBlocks =
        st.inoBlocks) := by
  unfold ext4_balloc_alloc_block
  simp only [okSched, EOK]
  norm_num
  by_cases hfree : st.bgFree (ext4_balloc_get_bgid_of_block env.sb goal) = 0
  · rw [if_pos hfree]
    exact allocLoop_ino env st _ _ _ _ _ _
  · rw [if_neg hfree]
    rw [show (if ext4_fs_baddr2_index_in_group env.sb goal <
        ext4_fs_baddr2_index_in_group env.sb
          (ext4_balloc_get_block_of_bgid env.sb
            (ext4_balloc_get_bgid_of_block env.sb goal)) then
        ext4_fs_baddr2_index_in_group env.sb
          (ext4_balloc_get_block_of_bgid env.sb
            (ext4_balloc_get_bgid_of_block env.sb goal))
      else ext4_fs_baddr2_index_in_group env.sb goal) =
        clampedGoalIdx env goal from rfl]
    by_cases hbit : ext4_bmap_is_bit_clr
        (st.bitmap (ext4_balloc_get_bgid_of_block env.sb goal))
        (clampedGoalIdx env goal) = true
    · rw [if_pos hbit]
      left
      refine ⟨rfl, ?_⟩
      simp [allocSuccess, applyAllocCounters]
    · rw [if_neg hbit]
      cases hfind : ext4_bmap_bit_find_clr
          (st.bitmap (ext4_balloc_get_bgid_of_block env.sb goal))
          (clampedGoalIdx env goal + 1)
          (if ext4_blocks_in_group_cnt env.sb
              (ext4_balloc_get_bgid_of_block env.sb goal) <
              (clampedGoalIdx env goal + 63) / 64 * 64 then
            ext4_blocks_in_group_cnt env.sb
              (ext4_balloc_get_bgid_of_block env.sb goal)
          else (clampedGoalIdx env goal + 63) / 64 * 64) with
      | some j =>
        left
        refine ⟨rfl, ?_⟩
        simp [allocSuccess, applyAllocCounters]
      | none =>
        cases hfind2 : ext4_bmap_bit_find_clr
            (st.bitmap (ext4_balloc_get_bgid_of_block env.sb goal))
            (clampedGoalIdx env goal)
            (ext4_blocks_in_group_cnt env.sb
              (ext4_balloc_get_bgid_of_block env.sb goal)) with
        | some j =>
          left
          refine ⟨rfl, ?_⟩
          simp [allocSuccess, applyAllocCounters]
        | none =>
          exact allocLoop_ino env st _ _ _ _ _ _


theorem runCall_ino (env : Env) (st : FsState) (c : Call)
    (hv : ValidCall env st c) (hio : InoCallOK env st c) :
    ((runCall env c st).st.inoBlocks : ℤ) =
      (st.inoBlocks : ℤ) +
        ((env.sb.block_size / EXT4_INODE_BLOCK_SIZE : ℕ) : ℤ) *
          inoDelta env st c := by
  cases c with
  | alloc goal =>
    have hb : st.inoBlocks + env.sb.block_size / EXT4_INODE_BLOCK_SIZE <
        U64 := hio
    rcases alloc_ino env st goal with ⟨hsome, hino⟩ | ⟨hnone, hino⟩
    · have hd : inoDelta env st (Call.alloc goal) = 1 := by
        show (if (ext4_balloc_alloc_block env okSched st goal).fblock.isSome =
            true then (1 : ℤ) else 0) = 1
        rw [hsome]
        rfl
      show ((ext4_balloc_alloc_block env okSched st goal).st.inoBlocks : ℤ) = _
      rw [hino, add64_eq_of_lt hb, hd]
      push_cast
      ring
    · have hd : inoDelta env st (Call.alloc goal) = 0 := by
        show (if (ext4_balloc_alloc_block env okSched st goal).fblock.isSome =
            true then (1 : ℤ) else 0) = 0
        rw [hnone]
        rfl
      show ((ext4_balloc_alloc_block env okSched st goal).st.inoBlocks : ℤ) = _
      rw [hino, hd]
      ring
  | freeOne baddr =>
    have hb1 : env.sb.block_size / EXT4_INODE_BLOCK_SIZE ≤ st.inoBlocks :=
      hio.1
    have hb2 : st.inoBlocks < U64 := hio.2
    have hst : (ext4_balloc_free_block env okSched st baddr).st =
        applyFreeCounters env
          (freeOneCommit env st (ext4_balloc_get_bgid_of_block env.sb baddr)
            (ext4_fs_baddr2_index_in_group env.sb baddr))
          (ext4_balloc_get_bgid_of_block env.sb baddr) 1 := by
      unfold ext4_balloc_free_block
      simp only [okSched, EOK]
      norm_num
    have hino : (ext4_balloc_free_block env okSched st baddr).st.inoBlocks =
        st.inoBlocks - env.sb.block_size / EXT4_INODE_BLOCK_SIZE := by
      rw [hst]
      have h1 : (applyFreeCounters env
          (freeOneCommit env st (ext4_balloc_get_bgid_of_block env.sb baddr)
            (ext4_fs_baddr2_index_in_group env.sb baddr))
          (ext4_balloc_get_bgid_of_block env.sb baddr) 1).inoBlocks =
          sub64 st.inoBlocks
            (1 * (env.sb.block_size / EXT4_INODE_BLOCK_SIZE)) := by
        simp [applyFreeCounters]
      rw [h1, one_mul]
      exact sub64_eq_of_le hb1 hb2
    have hd : inoDelta env st (Call.freeOne baddr) = -1 := rfl
    show ((ext4_balloc_free_block env okSched st baddr).st.inoBlocks : ℤ) = _
    rw [hino, hd, Nat.cast_sub hb1]
    push_cast
    ring
  | freeRange first count =>
    have hbpg : 0 < env.sb.blocks_per_group := hio.1
    have h8 : env.sb.blocks_per_group ≤ 8 * env.sb.block_size := hio.2.1
    have hsb : st.sbFree + count < U64 := hio.2.2.1
    have hk : count * (env.sb.block_size / EXT4_INODE_BLOCK_SIZE) ≤
        st.inoBlocks := hio.2.2.2.1
    have hlt : st.inoBlocks < U64 := hio.2.2.2.2
    have hoff : (if env.sb.first_data_block ≠ 0 then 1 else 0) ≤ first := hv.1
    have hcnt : 0 < count := hv.2.1
    have halign : ext4_fs_baddr2_index_in_group env.sb first + count ≤
        env.sb.blocks_per_group ∨
        env.sb.blocks_per_group = 8 * env.sb.block_size := hv.2.2.1
    have hmain := freeBlocksLoop_main env
      (ext4_balloc_get_bgid_of_block env.sb (first + count - 1) + 1 -
        ext4_balloc_get_bgid_of_block env.sb first)
      count first st 0 0 0 0
      (ext4_balloc_get_bgid_of_block env.sb first)
      (ext4_balloc_get_bgid_of_block env.sb (first + count - 1))
      hbpg h8 hoff hcnt halign hsb hlt hk rfl rfl rfl
    have hino : (ext4_balloc_free_blocks env okSched st first count).st.inoBlocks =
        st.inoBlocks - count * (env.sb.block_size / EXT4_INODE_BLOCK_SIZE) :=
      hmain.2.2.2.1
    have hd : inoDelta env st (Call.freeRange first count) = -(count : ℤ) := rfl
    show ((ext4_balloc_free_blocks env okSched st first count).st.inoBlocks : ℤ) = _
    rw [hino, hd, Nat.cast_sub hk]
    push_cast
    ring
  | tryOne baddr =>
    have hb : st.inoBlocks + env.sb.block_size / EXT4_INODE_BLOCK_SIZE <
        U64 := hio
    by_cases hbit : st.bitmap (ext4_balloc_get_bgid_of_block env.sb baddr)
        (ext4_fs_baddr2_index_in_group env.sb baddr) = true
    · have hst : (ext4_balloc_try_alloc_block env okSched st baddr).st = st := by
        unfold ext4_balloc_try_alloc_block
        simp only [okSched, EOK]
        norm_num
        rw [show ext4_bmap_is_bit_clr
            (st.bitmap (ext4_balloc_get_bgid_of_block env.sb baddr))
            (ext4_fs_baddr2_index_in_group env.sb baddr) = false by
          unfold ext4_bmap_is_bit_clr; rw [hbit]; rfl]
        rfl
      have hd : inoDelta env st (Call.tryOne baddr) = 0 := by
        show (if st.bitmap (ext4_balloc_get_bgid_of_block env.sb baddr)
            (ext4_fs_baddr2_index_in_group env.sb baddr) = true then (0 : ℤ)
          else 1) = 0
        rw [hbit]
        rfl
      show ((ext4_balloc_try_alloc_block env okSched st baddr).st.inoBlocks : ℤ) = _
      rw [hst, hd]
      ring
    · have hbit' : st.bitmap (ext4_balloc_get_bgid_of_block env.sb baddr)
          (ext4_fs_baddr2_index_in_group env.sb baddr) = false := by
        cases h : st.bitmap (ext4_balloc_get_bgid_of_block env.sb baddr)
            (ext4_fs_baddr2_index_in_group env.sb baddr)
        · rfl
        · exact absurd h hbit
      have hst : (ext4_balloc_try_alloc_block env okSched st baddr).st =
          applyAllocCounters env
            (claimCommit env st (ext4_balloc_get_bgid_of_block env.sb baddr)
              (ext4_fs_baddr2_index_in_group env.sb baddr))
            (ext4_balloc_get_bgid_of_block env.sb baddr) := by
        unfold ext4_balloc_try_alloc_block
        simp only [okSched, EOK]
        norm_num
        rw [show ext4_bmap_is_bit_clr
            (st.bitmap (ext4_balloc_get_bgid_of_block env.sb baddr))
            (ext4_fs_baddr2_index_in_group env.sb baddr) = true by
          unfold ext4_bmap_is_bit_clr; rw [hbit']; rfl]
        rfl
      have hino : (ext4_balloc_try_alloc_block env okSched st baddr).st.inoBlocks =
          st.inoBlocks + env.sb.block_size / EXT4_INODE_BLOCK_SIZE := by
        rw [hst]
        have h1 : (applyAllocCounters env
            (claimCommit env st (ext4_balloc_get_bgid_of_block env.sb baddr)
              (ext4_fs_baddr2_index_in_group env.sb baddr))
            (ext4_balloc_get_bgid_of_block env.sb baddr)).inoBlocks =
            add64 st.inoBlocks
              (env.sb.block_size / EXT4_INODE_BLOCK_SIZE) := by
          simp [applyAllocCounters]
        rw [h1]
        exact add64_eq_of_lt hb
      have hd : inoDelta env st (Call.tryOne baddr) = 1 := by
        show (if st.bitmap (ext4_balloc_get_bgid_of_block env.sb baddr)
            (ext4_fs_baddr2_index_in_group env.sb baddr) = true then (0 : ℤ)
          else 1) = 1
        rw [hbit']
        rfl
      show ((ext4_balloc_try_alloc_block env okSched st baddr).st.inoBlocks : ℤ) = _
      rw [hino, hd]
      push_cast
      ring


/-- C8 (amended): across any sequence of calls that are valid where they run
(`ValidCall`) and whose `uint64` inode/superblock counter arithmetic does not
wrap (`InoCallOK`), the inode block count changes by exactly
`block_size/512` per allocated block (an `alloc` that returns a block, a
`try_one` of a clear bit) and `−block_size/512` per freed block (`free_one`,
each of the `count` blocks of a `free_range`); with `512 ∣ block_size` this
is the spec equation `inode.blocks_count·512 = B·(#allocs − #frees)` relative
to the start.  The unamended claim, without the no-wrap conditions, is
refuted by `c8_counterexample`: `free_one` with a zero inode block count
wraps to `2^64 − block_size/512`. -/
theorem c8_inode_coherence (env : Env) (st : FsState) (calls : List Call)
    (hgood : GoodSeq env
      (fun s c => ValidCall env s c ∧ InoCallOK env s c) st calls) :
    ((runSeq env calls st).inoBlocks : ℤ) =
      (st.inoBlocks : ℤ) +
        ((env.sb.block_size / EXT4_INODE_BLOCK_SIZE : ℕ) : ℤ) *
          seqInoDelta env calls st := by
  induction hgood with
  | nil st =>
    show ((st.inoBlocks : ℤ)) = (st.inoBlocks : ℤ) + _ * seqInoDelta env [] st
    rw [show seqInoDelta env [] st = 0 from rfl]
    ring
  | cons st c cs hv _ ih =>
    show ((runSeq env cs (runCall env c st).st).inoBlocks : ℤ) = _
    rw [ih, runCall_ino env st c hv.1 hv.2,
      show seqInoDelta env (c :: cs) st =
        inoDelta env st c + seqInoDelta env cs (runCall env c st).st from rfl]
    ring

theorem c8_witness :
    ((runSeq envSmall [Call.freeOne 2] stOneUsed).inoBlocks : ℤ) =
      (stOneUsed.inoBlocks : ℤ) +
        ((envSmall.sb.block_size / EXT4_INODE_BLOCK_SIZE : ℕ) : ℤ) *
          seqInoDelta envSmall [Call.freeOne 2] stOneUsed :=
  c8_inode_coherence envSmall stOneUsed [Call.freeOne 2]
    (GoodSeq.cons _ _ _
      ⟨show ext4_balloc_get_bgid_of_block envSmall.sb 2 <
            ext4_block_group_cnt envSmall.sb ∧
          ext4_fs_baddr2_index_in_group envSmall.sb 2 <
            ext4_blocks_in_group_cnt envSmall.sb
              (ext4_balloc_get_bgid_of_block envSmall.sb 2) ∧
          stOneUsed.bitmap (ext4_balloc_get_bgid_of_block envSmall.sb 2)
            (ext4_fs_baddr2_index_in_group envSmall.sb 2) = true by decide,
        show envSmall.sb.block_size / EXT4_INODE_BLOCK_SIZE ≤
            stOneUsed.inoBlocks ∧ stOneUsed.inoBlocks < U64 by decide⟩
      (GoodSeq.nil _))

/-- The original C8 is false as stated: `free_one` of the in-use block 2 from
a state whose inode block count is 0 returns success, but `uint64`
subtraction wraps, so the new count is `2^64 − 8` instead of satisfying the
claimed relative equation `Δinode.blocks_count = (block_size/512)·(−1)`. -/
theorem c8_counterexample :
    ((ext4_balloc_free_block envSmall okSched
        { stOneUsed with inoBlocks := 0 } 2).rc = EOK) ∧
    ¬ (((ext4_balloc_free_block envSmall okSched
          { stOneUsed with inoBlocks := 0 } 2).st.inoBlocks : ℤ) =
        ((0 : ℕ) : ℤ) +
          ((envSmall.sb.block_size / EXT4_INODE_BLOCK_SIZE : ℕ) : ℤ) * (-1)) :=
  ⟨by decide, by decide⟩

end Balloc
